import Mathlib

/-! Verification development for the validation engine of the
`digitalyz_data_alchemist` repository
(`src/lib/validation/validationEngine.ts`).  The engine is embedded
shallowly: JavaScript runtime values become the inductive `JVal`,
entity records become association lists of fields, the engine's checks
become pure Lean functions returning finding lists, and a thrown
`TypeError` is modelled as an `Option String` error component. -/

set_option maxRecDepth 8000

/-! ## JavaScript values -/

mutual

/-- A JavaScript runtime value as handled by the validation engine.
JS numbers are modelled as integers: every numeric field of the
repository (priority, duration, phases, loads) is integral, and the
modelled `JSON.parse` / `parseInt` accordingly accept integer literals
only.  `undef` is JavaScript `undefined` (absent field or missed
object lookup), `null` is JSON null, `nan` is the number NaN. -/
inductive JVal where
  | num (n : Int)
  | str (s : String)
  | bool (b : Bool)
  | null
  | undef
  | nan
  | arr (xs : JArr)
  | obj (xs : JObj)

/-- A JavaScript array of `JVal`s (spelled out so that structural
recursion over nested values stays kernel-computable). -/
inductive JArr where
  | nil
  | cons (hd : JVal) (tl : JArr)

/-- A JavaScript object: ordered key/value pairs. -/
inductive JObj where
  | nil
  | cons (key : String) (val : JVal) (tl : JObj)

end

def JArr.toList : JArr → List JVal
  | .nil => []
  | .cons h t => h :: t.toList

def JArr.ofList : List JVal → JArr
  | [] => .nil
  | h :: t => .cons h (JArr.ofList t)

def JObj.toList : JObj → List (String × JVal)
  | .nil => []
  | .cons k v t => (k, v) :: t.toList

/-- JavaScript truthiness: `0`, `""`, `false`, `null`, `undefined` and
`NaN` are falsy; every other value (arrays and objects included) is
truthy. -/
def truthy : JVal → Bool
  | .num n => n != 0
  | .str s => s != ""
  | .bool b => b
  | .null => false
  | .undef => false
  | .nan => false
  | .arr _ => true
  | .obj _ => true

/-- `v || d` in JavaScript: the left operand when truthy, else `d`. -/
def truthyOr (v d : JVal) : JVal := if truthy v then v else d

mutual

/-- JavaScript `String(v)` coercion. -/
def jsToString : JVal → String
  | .num n => toString n
  | .str s => s
  | .bool b => if b then "true" else "false"
  | .null => "null"
  | .undef => "undefined"
  | .nan => "NaN"
  | .arr xs => jarrJoin xs
  | .obj _ => "[object Object]"

/-- `Array.prototype.toString`: elements stringified and joined by commas. -/
def jarrJoin : JArr → String
  | .nil => ""
  | .cons h .nil => jsToString h
  | .cons h (.cons h2 t) => jsToString h ++ "," ++ jarrJoin (.cons h2 t)

end

/-- JavaScript strict equality (`===`) restricted to how the engine can
observe it: primitives compare structurally, `NaN` equals nothing, and
arrays/objects compare by reference — two separately parsed or
constructed composites are never identical, which is the only situation
the engine produces, so composites always compare unequal here. -/
def jsStrictEq : JVal → JVal → Bool
  | .num a, .num b => a == b
  | .str a, .str b => a == b
  | .bool a, .bool b => a == b
  | .null, .null => true
  | .undef, .undef => true
  | _, _ => false

/-! ## Number and string coercions -/

/-- Leading decimal digits of a character list. -/
def takeDigits : List Char → (List Char × List Char)
  | [] => ([], [])
  | c :: cs =>
    if c.isDigit then
      let (ds, rest) := takeDigits cs
      (c :: ds, rest)
    else ([], c :: cs)

def digitsToNat (ds : List Char) : Nat :=
  ds.foldl (fun acc c => acc * 10 + (c.toNat - '0'.toNat)) 0

/-- Skip JSON/JS whitespace. -/
def skipWs : List Char → List Char
  | [] => []
  | c :: cs =>
    if c = ' ' ∨ c = '\t' ∨ c = '\n' ∨ c = '\r' then skipWs cs else c :: cs

/-- `pat` is a leading run of `s` (structural, kernel-computable). -/
def charListLead : List Char → List Char → Bool
  | [], _ => true
  | _ :: _, [] => false
  | p :: ps, c :: cs => p == c && charListLead ps cs

def charListSub (pat : List Char) : List Char → Bool
  | [] => charListLead pat []
  | c :: cs => charListLead pat (c :: cs) || charListSub pat cs

/-- `s.includes(pat)` on strings: substring containment. -/
def strHasSub (s pat : String) : Bool := charListSub pat.toList s.toList

/-- `trim`: strip the surrounding whitespace (structural replacement
for `String.trim`, so concrete runs reduce in the kernel). -/
def strTrim (s : String) : String :=
  String.mk (List.reverse (skipWs (List.reverse (skipWs s.toList))))

def splitOnChar (sep : Char) : List Char → List (List Char)
  | [] => [[]]
  | c :: rest =>
    let r := splitOnChar sep rest
    if c = sep then [] :: r
    else
      match r with
      | [] => [[c]]
      | g :: gs => (c :: g) :: gs

/-- `s.split(sep)` for a one-character separator (the engine splits
only on "," and "-"). -/
def strSplitChar (s : String) (sep : Char) : List String :=
  (splitOnChar sep s.toList).map (fun cs => String.mk cs)

/-- `toLowerCase` (structural replacement for `String.toLower`). -/
def strToLower (s : String) : String := String.mk (s.toList.map Char.toLower)

/-- `toUpperCase` (structural replacement for `String.toUpper`). -/
def strToUpper (s : String) : String := String.mk (s.toList.map Char.toUpper)

/-- `startsWith` (structural replacement for `String.startsWith`). -/
def strStartsWith (s pat : String) : Bool := charListLead pat.toList s.toList

/-- `s.includes(c)` for one character. -/
def strContainsChar (s : String) (c : Char) : Bool := s.toList.contains c

/-- Lexicographic string comparison by code points (JS `<` on two
strings; structural replacement for `String.lt`). -/
def charListLt : List Char → List Char → Bool
  | [], [] => false
  | [], _ :: _ => true
  | _ :: _, [] => false
  | a :: as, b :: bs => if a < b then true else if b < a then false else charListLt as bs

def strLtB (a b : String) : Bool := charListLt a.toList b.toList

/-- Model of JavaScript `parseInt` on a string: skip leading
whitespace, optional sign, then the longest run of decimal digits;
`none` models NaN.  (Hex prefixes and floats are outside the model.) -/
def parseIntJS (s : String) : Option Int :=
  let cs := skipWs s.toList
  let (neg, cs) : Bool × List Char :=
    match cs with
    | '-' :: r => (true, r)
    | '+' :: r => (false, r)
    | r => (false, r)
  let (ds, _) := takeDigits cs
  if ds.isEmpty then none
  else some ((if neg then (-1 : Int) else 1) * (digitsToNat ds : Int))

/-- JavaScript `Number(v)` coercion of a full (already trimmed inside)
string; `none` models NaN.  Integer literals only, per the `JVal`
modelling note. -/
def strToNumber (s : String) : Option Int :=
  let cs := skipWs s.toList
  if cs.isEmpty then some 0
  else
    let (neg, cs') : Bool × List Char :=
      match cs with
      | '-' :: r => (true, r)
      | '+' :: r => (false, r)
      | r => (false, r)
    let (ds, rest) := takeDigits cs'
    if ds.isEmpty ∨ ¬(skipWs rest).isEmpty then none
    else some ((if neg then (-1 : Int) else 1) * (digitsToNat ds : Int))

/-- JavaScript `ToPrimitive` as observed by `+` and comparisons:
arrays and objects convert via their string form. -/
def toPrimitive : JVal → JVal
  | .arr xs => .str (jsToString (.arr xs))
  | .obj xs => .str (jsToString (.obj xs))
  | v => v

/-- JavaScript `ToNumber` on a primitive value; `none` models NaN. -/
def toNumber (v : JVal) : Option Int :=
  match toPrimitive v with
  | .num n => some n
  | .str s => strToNumber s
  | .bool b => some (if b then 1 else 0)
  | .null => some 0
  | .undef => none
  | .nan => none
  | .arr _ => none
  | .obj _ => none

/-- JavaScript `+`: string concatenation when either primitive operand
is a string, numeric addition otherwise (NaN-propagating). -/
def jsAdd (v w : JVal) : JVal :=
  match toPrimitive v, toPrimitive w with
  | .str a, b => .str (a ++ jsToString b)
  | a, .str b => .str (jsToString a ++ b)
  | a, b =>
    match toNumber a, toNumber b with
    | some x, some y => .num (x + y)
    | _, _ => .nan

/-- JavaScript `v > w`: lexicographic when both primitives are strings,
numeric otherwise (false when either side is NaN). -/
def jsGt (v w : JVal) : Bool :=
  match toPrimitive v, toPrimitive w with
  | .str a, .str b => strLtB b a
  | a, b =>
    match toNumber a, toNumber b with
    | some x, some y => decide (y < x)
    | _, _ => false

/-- JavaScript `v < w` (the engine only compares against number
literals, so the string/string case still follows JS). -/
def jsLt (v w : JVal) : Bool :=
  match toPrimitive v, toPrimitive w with
  | .str a, .str b => strLtB a b
  | a, b =>
    match toNumber a, toNumber b with
    | some x, some y => decide (x < y)
    | _, _ => false

/-! ## JSON.parse model -/

/-- Parse the body of a JSON string literal (after the opening quote),
with the common escapes. -/
def parseJsonString : List Char → Option (String × List Char)
  | [] => none
  | '"' :: rest => some ("", rest)
  | '\\' :: c :: rest =>
    let esc : Option Char :=
      match c with
      | '"' => some '"'
      | '\\' => some '\\'
      | '/' => some '/'
      | 'n' => some '\n'
      | 't' => some '\t'
      | 'r' => some '\r'
      | _ => none
    match esc with
    | none => none
    | some e =>
      match parseJsonString rest with
      | some (s, r) => some (String.mk (e :: s.toList), r)
      | none => none
  | c :: rest =>
    match parseJsonString rest with
    | some (s, r) => some (String.mk (c :: s.toList), r)
    | none => none

/-- Parse a JSON integer literal (sign, digits, no leading zeros, and
no fraction/exponent — floats are outside the model). -/
def parseJsonNumber (cs : List Char) : Option (Int × List Char) :=
  let (neg, cs') : Bool × List Char :=
    match cs with
    | '-' :: r => (true, r)
    | r => (false, r)
  let (ds, rest) := takeDigits cs'
  match ds with
  | [] => none
  | d :: ds' =>
    if d = '0' ∧ ¬ds'.isEmpty then none
    else
      match rest with
      | '.' :: _ => none
      | 'e' :: _ => none
      | 'E' :: _ => none
      | _ => some ((if neg then (-1 : Int) else 1) * (digitsToNat (d :: ds') : Int), rest)

/-- Fuel-indexed recursive-descent JSON value parser.  Array and object
tails are parsed by re-entering the function on `[`/`{` prepended to the
remaining input; every recursive call receives a strictly shorter
effective input, so fuel `length + 1` always suffices. -/
def parseJsonValue : Nat → List Char → Option (JVal × List Char)
  | 0, _ => none
  | fuel + 1, cs =>
    match skipWs cs with
    | 'n' :: 'u' :: 'l' :: 'l' :: rest => some (.null, rest)
    | 't' :: 'r' :: 'u' :: 'e' :: rest => some (.bool true, rest)
    | 'f' :: 'a' :: 'l' :: 's' :: 'e' :: rest => some (.bool false, rest)
    | '"' :: rest =>
      match parseJsonString rest with
      | some (s, r) => some (.str s, r)
      | none => none
    | '[' :: rest =>
      (match skipWs rest with
       | ']' :: r => some (.arr .nil, r)
       | body =>
         match parseJsonValue fuel body with
         | none => none
         | some (x, r1) =>
           match skipWs r1 with
           | ']' :: r2 => some (.arr (.cons x .nil), r2)
           | ',' :: r2 =>
             match parseJsonValue fuel ('[' :: r2) with
             | some (.arr xs, r3) => some (.arr (.cons x xs), r3)
             | _ => none
           | _ => none)
    | '\x7b' :: rest =>
      (match skipWs rest with
       | '\x7d' :: r => some (.obj .nil, r)
       | '"' :: body =>
         match parseJsonString body with
         | none => none
         | some (k, r1) =>
           match skipWs r1 with
           | ':' :: r2 =>
             match parseJsonValue fuel r2 with
             | none => none
             | some (v, r3) =>
               match skipWs r3 with
               | '\x7d' :: r4 => some (.obj (.cons k v .nil), r4)
               | ',' :: r4 =>
                 match parseJsonValue fuel ('\x7b' :: r4) with
                 | some (.obj xs, r5) => some (.obj (.cons k v xs), r5)
                 | _ => none
               | _ => none
           | _ => none
       | _ => none)
    | cs' => (parseJsonNumber cs').map (fun (n, r) => (JVal.num n, r))

/-- Model of `JSON.parse` on a string: one JSON value followed only by
whitespace; `none` models a thrown `SyntaxError` (always caught by the
engine where it can occur). -/
def jsonParse (s : String) : Option JVal :=
  match parseJsonValue (s.length + 1) s.toList with
  | some (v, rest) => if (skipWs rest).isEmpty then some v else none
  | none => none

/-- `JSON.parse` applied to an arbitrary value: the argument is first
coerced to a string. -/
def jsonParseVal (v : JVal) : Option JVal := jsonParse (jsToString v)

/-! ## Engine data model -/

/-- An entity record: ordered field/value pairs (one JS object row). -/
abbrev Entity := List (String × JVal)

/-- Property access `entity[k]`: `undefined` when the field is absent. -/
def getField (e : Entity) (k : String) : JVal :=
  match e.lookup k with
  | none => .undef
  | some v => v

/-- The optional entity collections handed to `validateData`
(`undefined` collection = `none`; a present-but-empty array is
`some []`, which is truthy in JS). -/
structure EntityData where
  clients : Option (List Entity)
  workers : Option (List Entity)
  tasks : Option (List Entity)

/-- One diagnostic finding (TS `ValidationResult` as pushed by the
engine; `id` is never set).  `entityId` keeps the raw JS value the
engine stores there. -/
structure ValidationResult where
  type : String
  severity : String
  message : String
  entityType : String
  entityId : Option JVal
  field : Option String
  suggestion : Option String

/-- The `parameters` bag of a business rule, restricted to the shapes
the engine reads: `taskIds` for coRun rules, `taskId` and
`allowedPhases` for phaseWindow rules. -/
structure RuleParameters where
  taskIds : Option (List String)
  taskId : Option String
  allowedPhases : Option (List Int)

/-- TS `BusinessRule`. -/
structure BusinessRule where
  id : String
  type : String
  name : String
  description : String
  parameters : RuleParameters
  isActive : Bool
  createdAt : String

/-- `typeof v === 'number'` (NaN is a number in JS). -/
def isNumberType : JVal → Bool
  | .num _ => true
  | .nan => true
  | _ => false

def jsIndexOfValAux (v : JVal) : Nat → List JVal → Int
  | _, [] => -1
  | i, x :: xs => if jsStrictEq x v then (i : Int) else jsIndexOfValAux v (i + 1) xs

/-- JS `Array.prototype.indexOf` (strict equality, `-1` when absent). -/
def jsIndexOfVal (l : List JVal) (v : JVal) : Int := jsIndexOfValAux v 0 l

/-- `[...new Set(xs)]`: first occurrences, in order. -/
def dedupVals (xs : List JVal) : List JVal :=
  xs.foldl (fun acc x => if acc.any (fun y => jsStrictEq y x) then acc else acc ++ [x]) []

/-! ## Per-entity validators (validationEngine.ts, validations 1-6) -/

/-- Validation 1: missing required columns, using the first record's
key set as a schema proxy. -/
def validateRequiredColumns (entities : List Entity) (entityType : String) : List ValidationResult :=
  if entities.isEmpty then []
  else
    let required : List String :=
      if entityType = "clients" then ["ClientID", "ClientName", "PriorityLevel", "RequestedTaskIDs"]
      else if entityType = "workers" then ["WorkerID", "WorkerName", "Skills", "AvailableSlots", "MaxLoadPerPhase"]
      else ["TaskID", "TaskName", "Duration", "RequiredSkills"]
    let actualColumns := (entities.headD []).map Prod.fst
    let missing := required.filter (fun col => !actualColumns.contains col)
    if missing.isEmpty then []
    else
      [{ type := "missing_columns", severity := "error",
         message := "Missing required columns: " ++ String.intercalate ", " missing,
         entityType := entityType, entityId := none, field := none,
         suggestion := some ("Add the missing columns to your " ++ entityType ++ " data") }]

/-- The id field name the engine derives from the collection name by
string surgery (`"clients"` → `"ClientID"`). -/
def idFieldName (entityType : String) : String :=
  strToUpper (entityType.take 1) ++ (entityType.drop 1).dropRight 1 ++ "ID"

/-- Validation 2: duplicate IDs (falsy ids are ignored; duplicates are
reported once per distinct duplicated value). -/
def validateUniqueIds (entities : List Entity) (entityType : String) : List ValidationResult :=
  if entities.isEmpty then []
  else
    let idField := idFieldName entityType
    let ids := (entities.map (fun e => getField e idField)).filter truthy
    let duplicates := (ids.enum.filter (fun p => jsIndexOfVal ids p.2 != (p.1 : Int))).map Prod.snd
    (dedupVals duplicates).map (fun dupId =>
      { type := "duplicate_id", severity := "error",
        message := "Duplicate ID found: " ++ jsToString dupId,
        entityType := entityType, entityId := some dupId, field := none,
        suggestion := some "Ensure all IDs are unique" })

/-- Validation 3: priority level range 1-5.  Note the JS truthiness
guard: a falsy `PriorityLevel` (such as `0`) is skipped entirely. -/
def validatePriorityLevels (clients : List Entity) : List ValidationResult :=
  clients.flatMap (fun client =>
    let priority := getField client "PriorityLevel"
    if truthy priority && (jsLt priority (.num 1) || jsGt priority (.num 5)) then
      [{ type := "invalid_priority", severity := "error",
         message := "Priority level must be between 1-5, found: " ++ jsToString priority,
         entityType := "clients", entityId := some (getField client "ClientID"),
         field := some "PriorityLevel",
         suggestion := some "Set priority level to a value between 1 and 5" }]
    else [])

/-- Validation 4: malformed JSON in AttributesJSON (only truthy string
values are inspected). -/
def validateAttributesJSON (clients : List Entity) : List ValidationResult :=
  clients.flatMap (fun client =>
    let attrs := getField client "AttributesJSON"
    if truthy attrs then
      match attrs with
      | .str s =>
        if strStartsWith (strTrim s) "\x7b" || strStartsWith (strTrim s) "[" then
          match jsonParse s with
          | some _ => []
          | none =>
            [{ type := "invalid_json", severity := "error",
               message := "Invalid JSON format in AttributesJSON",
               entityType := "clients", entityId := some (getField client "ClientID"),
               field := some "AttributesJSON",
               suggestion := some "Fix JSON syntax or convert to valid JSON format" }]
        else
          [{ type := "non_json_attributes", severity := "warning",
             message := "AttributesJSON contains text instead of JSON",
             entityType := "clients", entityId := some (getField client "ClientID"),
             field := some "AttributesJSON",
             suggestion := some "Consider converting to JSON format for better structure" }]
      | _ => []
    else [])

/-- Validation 5: malformed AvailableSlots: unparseable JSON, parseable
non-array, or an array with a non-number or sub-1 element. -/
def validateAvailableSlots (workers : List Entity) : List ValidationResult :=
  workers.flatMap (fun worker =>
    let slots := getField worker "AvailableSlots"
    if truthy slots then
      match jsonParseVal slots with
      | none =>
        [{ type := "unparseable_slots", severity := "error",
           message := "AvailableSlots contains invalid JSON",
           entityType := "workers", entityId := some (getField worker "WorkerID"),
           field := some "AvailableSlots",
           suggestion := some "Use valid JSON array format like [1,2,3]" }]
      | some parsed =>
        match parsed with
        | .arr xs =>
          if xs.toList.any (fun slot => !isNumberType slot || jsLt slot (.num 1)) then
            [{ type := "invalid_slot_values", severity := "error",
               message := "AvailableSlots must contain positive numbers",
               entityType := "workers", entityId := some (getField worker "WorkerID"),
               field := some "AvailableSlots",
               suggestion := some "Use positive phase numbers like [1,2,3]" }]
          else []
        | _ =>
          [{ type := "invalid_slots_format", severity := "error",
             message := "AvailableSlots must be an array",
             entityType := "workers", entityId := some (getField worker "WorkerID"),
             field := some "AvailableSlots",
             suggestion := some "Use array format like [1,2,3]" }]
    else [])

/-- Validation 6: task duration must be a number >= 1.  Note the JS
truthiness guard: a `Duration` of `0` is skipped entirely. -/
def validateTaskDuration (tasks : List Entity) : List ValidationResult :=
  tasks.flatMap (fun task =>
    let duration := getField task "Duration"
    if truthy duration && (!isNumberType duration || jsLt duration (.num 1)) then
      [{ type := "invalid_duration", severity := "error",
         message := "Task duration must be >= 1, found: " ++ jsToString duration,
         entityType := "tasks", entityId := some (getField task "TaskID"),
         field := some "Duration",
         suggestion := some "Set duration to a positive number" }]
    else [])

/-! ## PreferredPhases parsing, as inlined twice in the source -/

/-- `preferredPhases.split('-').map(p => parseInt(p.trim()))`
destructured as `[start, end]`; a missing half is `undefined`, hence
NaN after `parseInt`, modelled as `none`. -/
def dashParts (s : String) : Option Int × Option Int :=
  let parts := (strSplitChar s '-').map (fun p => parseIntJS (strTrim p))
  (parts.headD none, parts.getD 1 none)

/-- `Array.from({length: stop - start + 1}, (_, i) => start + i)`. -/
def intRangeList (start stop : Int) : List Int :=
  (List.range (stop + 1 - start).toNat).map (fun (i : Nat) => start + (i : Int))

/-- `v.length === 0`: true for the empty array and the empty string;
false otherwise (other values have an `undefined` `length`). -/
def jsLengthIsZero : JVal → Bool
  | .arr .nil => true
  | .str s => s == ""
  | _ => false

/-- The PreferredPhases parsing inlined in `validatePhaseSlotSaturation`
(lines 366-384): a JSON parse attempt when the string has both
brackets (silently keeping the initial `[]` on failure), else an
inclusive dash range when both halves parse as integers, and finally
`[1]` whenever the accumulated result still has length zero. -/
def saturationPreferredPhases (preferredPhases : String) : JVal :=
  let phases : JVal := .arr .nil
  let phases :=
    if strContainsChar preferredPhases '[' && strContainsChar preferredPhases ']' then
      match jsonParse preferredPhases with
      | some v => v
      | none => phases
    else if strContainsChar preferredPhases '-' then
      match dashParts preferredPhases with
      | (some start, some stop) => .arr (JArr.ofList ((intRangeList start stop).map JVal.num))
      | _ => phases
    else phases
  if jsLengthIsZero phases then .arr (.cons (.num 1) .nil) else phases

/-- The PreferredPhases parsing inlined in `validateRuleConflicts`
(lines 497-514): the same JSON-array and dash-range cases, but a JSON
parse failure and the no-bracket-no-dash case fall back to
`[1,2,3,4,5]`, and an empty dash result stays empty. -/
def conflictPreferredPhases (preferredPhases : String) : JVal :=
  if strContainsChar preferredPhases '[' && strContainsChar preferredPhases ']' then
    match jsonParse preferredPhases with
    | some v => v
    | none => .arr (JArr.ofList ([1, 2, 3, 4, 5].map JVal.num))
  else if strContainsChar preferredPhases '-' then
    match dashParts preferredPhases with
    | (some start, some stop) => .arr (JArr.ofList ((intRangeList start stop).map JVal.num))
    | _ => .arr .nil
  else .arr (JArr.ofList ([1, 2, 3, 4, 5].map JVal.num))

/-! ## Cross-entity validators (validations 7-11) -/

/-- Validation 7: RequestedTaskIDs must reference existing TaskIDs
(only truthy string values are split; one finding per client). -/
def validateTaskReferences (clients tasks : List Entity) : List ValidationResult :=
  let taskIds := tasks.map (fun task => getField task "TaskID")
  clients.flatMap (fun client =>
    let requestedTasks := getField client "RequestedTaskIDs"
    if truthy requestedTasks then
      match requestedTasks with
      | .str s =>
        let taskIdList := (strSplitChar s ',').map strTrim
        let missingTasks := taskIdList.filter (fun taskId =>
          taskId != "" && !taskIds.any (fun v => jsStrictEq v (.str taskId)))
        if missingTasks.isEmpty then []
        else
          [{ type := "missing_task_references", severity := "error",
             message := "Referenced tasks don\x27t exist: " ++ String.intercalate ", " missingTasks,
             entityType := "clients", entityId := some (getField client "ClientID"),
             field := some "RequestedTaskIDs",
             suggestion := some "Remove invalid task references or add the missing tasks" }]
      | _ => []
    else [])

/-- Validation 8: overloaded workers.  The whole body runs inside a
`try/catch`, so a worker whose slots fail to parse yields no finding. -/
def validateOverloadedWorkers (workers : List Entity) : List ValidationResult :=
  workers.flatMap (fun worker =>
    match jsonParseVal (truthyOr (getField worker "AvailableSlots") (.str "[]")) with
    | none => []
    | some availableSlots =>
      let maxLoad := truthyOr (getField worker "MaxLoadPerPhase") (.num 0)
      match availableSlots with
      | .arr xs =>
        if jsLt (.num (xs.toList.length : Int)) maxLoad then
          [{ type := "overloaded_worker", severity := "error",
             message := "Worker has " ++ toString xs.toList.length ++
               " available slots but max load is " ++ jsToString maxLoad,
             entityType := "workers", entityId := some (getField worker "WorkerID"),
             field := some "MaxLoadPerPhase",
             suggestion := some ("Reduce MaxLoadPerPhase to " ++ toString xs.toList.length ++
               " or add more available slots") }]
        else []
      | _ => [])

/-- Sequence two checks: a thrown error stops the pipeline but keeps
the findings already pushed. -/
def seqChecks (a b : List ValidationResult × Option String) :
    List ValidationResult × Option String :=
  match a with
  | (l, some e) => (l, some e)
  | (l, none) => (l ++ b.1, b.2)

/-- `v.split(',')`: string receiver only, anything else throws. -/
def jsSplitComma : JVal → Except String (List String)
  | .str s => .ok (strSplitChar s ',')
  | _ => .error "TypeError: split is not a function"

/-- Insertion into a JS `Set` of strings (ordered, deduplicated). -/
def setAddStr (s : List String) (x : String) : List String :=
  if s.contains x then s else s ++ [x]

/-- Validation 9, workers half: the union of all workers' skills,
trimmed and lower-cased.  A truthy non-string `Skills` throws. -/
def collectWorkerSkills (workers : List Entity) : Except String (List String) :=
  workers.foldlM (fun acc worker =>
    let sk := getField worker "Skills"
    if truthy sk then
      match jsSplitComma sk with
      | .ok parts => .ok ((parts.map (fun p => strToLower (strTrim p))).foldl setAddStr acc)
      | .error e => .error e
    else .ok acc) []

/-- Validation 9, tasks half: report tasks whose required skills are
not covered; a truthy non-string `RequiredSkills` throws, keeping the
findings already pushed. -/
def skillCoverageTasks (allWorkerSkills : List String) : List Entity → List ValidationResult × Option String
  | [] => ([], none)
  | task :: rest =>
    let req := getField task "RequiredSkills"
    if truthy req then
      match jsSplitComma req with
      | .error e => ([], some e)
      | .ok parts =>
        let requiredSkills := parts.map (fun p => strToLower (strTrim p))
        let missingSkills := requiredSkills.filter (fun skill => !allWorkerSkills.contains skill)
        let here : List ValidationResult :=
          if missingSkills.isEmpty then []
          else
            [{ type := "missing_skill_coverage", severity := "error",
               message := "No workers have required skills: " ++ String.intercalate ", " missingSkills,
               entityType := "tasks", entityId := some (getField task "TaskID"),
               field := some "RequiredSkills",
               suggestion := some ("Hire workers with skills: " ++ String.intercalate ", " missingSkills ++
                 " or modify task requirements") }]
        seqChecks (here, none) (skillCoverageTasks allWorkerSkills rest)
    else skillCoverageTasks allWorkerSkills rest

/-- Validation 9: skill-coverage matrix. -/
def validateSkillCoverage (workers tasks : List Entity) : List ValidationResult × Option String :=
  match collectWorkerSkills workers with
  | .error e => ([], some e)
  | .ok allWorkerSkills => skillCoverageTasks allWorkerSkills tasks

/-- Validation 10, filter: workers whose skills cover the required
list; a truthy non-string worker `Skills` throws inside the filter. -/
def qualifiedWorkersFor (workers : List Entity) (requiredSkills : List String) :
    Except String (List Entity) :=
  workers.foldlM (fun acc worker =>
    let sk := getField worker "Skills"
    if !truthy sk then .ok acc
    else
      match jsSplitComma sk with
      | .error e => .error e
      | .ok parts =>
        let workerSkills := parts.map (fun p => strToLower (strTrim p))
        if requiredSkills.all (fun r => workerSkills.contains r) then .ok (acc ++ [worker])
        else .ok acc) []

/-- Validation 10, per task. -/
def maxConcurrencyTasks (workers : List Entity) : List Entity → List ValidationResult × Option String
  | [] => ([], none)
  | task :: rest =>
    let mc := getField task "MaxConcurrent"
    let req := getField task "RequiredSkills"
    if truthy mc && truthy req then
      match jsSplitComma req with
      | .error e => ([], some e)
      | .ok parts =>
        let requiredSkills := parts.map (fun p => strToLower (strTrim p))
        match qualifiedWorkersFor workers requiredSkills with
        | .error e => ([], some e)
        | .ok qualified =>
          let here : List ValidationResult :=
            if jsGt mc (.num (qualified.length : Int)) then
              [{ type := "max_concurrency_infeasible", severity := "error",
                 message := "Task requires " ++ jsToString mc ++ " concurrent workers but only " ++
                   toString qualified.length ++ " are qualified",
                 entityType := "tasks", entityId := some (getField task "TaskID"),
                 field := some "MaxConcurrent",
                 suggestion := some ("Reduce MaxConcurrent to " ++ toString qualified.length ++
                   " or hire more qualified workers") }]
            else []
          seqChecks (here, none) (maxConcurrencyTasks workers rest)
    else maxConcurrencyTasks workers rest

/-- Validation 10: max-concurrency feasibility. -/
def validateMaxConcurrency (workers tasks : List Entity) : List ValidationResult × Option String :=
  maxConcurrencyTasks workers tasks

/-! ## Validation 11: phase-slot saturation -/

/-- JS objects used as maps: insertion-ordered string keys. -/
abbrev JMap := List (String × JVal)

/-- `m[k]`: `undefined` when absent. -/
def objGet (m : JMap) (k : String) : JVal :=
  match m.lookup k with
  | none => .undef
  | some v => v

/-- `m[k] = v`: update in place, or append a new key. -/
def objSet (m : JMap) (k : String) (v : JVal) : JMap :=
  if m.any (fun p => p.1 == k) then m.map (fun p => if p.1 == k then (k, v) else p)
  else m ++ [(k, v)]

/-- Validation 11, capacity half: per-phase worker capacity, summing
`MaxLoadPerPhase` over every parsed slot; parse failures are skipped
by the `try/catch`. -/
def phaseCapacityMap (workers : List Entity) : JMap :=
  workers.foldl (fun cap worker =>
    match jsonParseVal (truthyOr (getField worker "AvailableSlots") (.str "[]")) with
    | none => cap
    | some availableSlots =>
      let maxLoad := truthyOr (getField worker "MaxLoadPerPhase") (.num 0)
      match availableSlots with
      | .arr xs =>
        xs.toList.foldl (fun cap phase =>
          objSet cap (jsToString phase)
            (jsAdd (truthyOr (objGet cap (jsToString phase)) (.num 0)) maxLoad)) cap
      | _ => cap) []

/-- Validation 11, per task: the `phases` value the inline parser
produces.  A truthy non-string, non-array `PreferredPhases` throws at
`.includes`; an array is probed for the element strings `"["`, `"]"`,
`"-"` (JS `includes` on arrays is element equality) and throws at
`.split` when a dash element is present. -/
def taskPhasesValue (task : Entity) : Except String JVal :=
  let preferredPhases := truthyOr (getField task "PreferredPhases") (.str "")
  match preferredPhases with
  | .str s => .ok (saturationPreferredPhases s)
  | .arr xs =>
    let elems := xs.toList
    if (elems.any (fun v => jsStrictEq v (.str "["))) &&
       (elems.any (fun v => jsStrictEq v (.str "]"))) then
      let phases : JVal :=
        match jsonParseVal (.arr xs) with
        | some v => v
        | none => .arr .nil
      .ok (if jsLengthIsZero phases then .arr (.cons (.num 1) .nil) else phases)
    else if elems.any (fun v => jsStrictEq v (.str "-")) then
      .error "TypeError: split is not a function"
    else .ok (.arr (.cons (.num 1) .nil))
  | _ => .error "TypeError: includes is not a function"

/-- Validation 11, demand half: per-phase task demand, summing each
task's `Duration` (default 1) over its preferred phases.  A non-array
`phases` value throws at `.forEach`. -/
def phaseDemandMap (tasks : List Entity) : Except String JMap :=
  tasks.foldlM (fun dem task =>
    let duration := truthyOr (getField task "Duration") (.num 1)
    match taskPhasesValue task with
    | .error e => .error e
    | .ok phasesVal =>
      match phasesVal with
      | .arr xs =>
        .ok (xs.toList.foldl (fun dem phase =>
          objSet dem (jsToString phase)
            (jsAdd (truthyOr (objGet dem (jsToString phase)) (.num 0)) duration)) dem)
      | _ => .error "TypeError: forEach is not a function") []

/-- The reporting loop of validation 11 for one demand key: `parseInt`
the stored key and re-index both maps with the stringified result
(so a non-canonical key is looked up at a different key). -/
def mkSaturationFinding (dem cap : JMap) (k : String) : List ValidationResult :=
  let phaseStr :=
    match parseIntJS k with
    | some n => toString n
    | none => "NaN"
  let demand := objGet dem phaseStr
  let capacity := truthyOr (objGet cap phaseStr) (.num 0)
  if jsGt demand capacity then
    [{ type := "phase_slot_saturation", severity := "error",
       message := "Phase " ++ phaseStr ++ " is overloaded: " ++ jsToString demand ++
         " task duration units vs " ++ jsToString capacity ++ " worker capacity",
       entityType := "tasks", entityId := none, field := some "PreferredPhases",
       suggestion := some ("Redistribute tasks from phase " ++ phaseStr ++
         " or increase worker capacity") }]
  else []

/-- Validation 11: phase-slot saturation. -/
def validatePhaseSlotSaturation (workers tasks : List Entity) :
    List ValidationResult × Option String :=
  let cap := phaseCapacityMap workers
  match phaseDemandMap tasks with
  | .error e => ([], some e)
  | .ok dem => ((dem.map Prod.fst).flatMap (mkSaturationFinding dem cap), none)

/-! ## Validation 12: circular co-run groups -/

/-- Findings/bookkeeping shared across the circular-co-run DFS. -/
structure DfsState where
  visited : List String
  recStack : List String
  findings : List ValidationResult

def jsIndexOfStrAux (v : String) : Nat → List String → Int
  | _, [] => -1
  | i, x :: xs => if x == v then (i : Int) else jsIndexOfStrAux v (i + 1) xs

/-- JS `Array.prototype.indexOf` on strings. -/
def jsIndexOfStr (l : List String) (v : String) : Int := jsIndexOfStrAux v 0 l

/-- `Array.prototype.slice(start)`, negative indices counting from the
end. -/
def jsSlice (l : List String) (start : Int) : List String :=
  if start < 0 then l.drop (((l.length : Int) + start).toNat) else l.drop start.toNat

/-- The finding pushed when the DFS closes a cycle. -/
def mkCircularFinding (cycle : List String) : ValidationResult :=
  { type := "circular_corun_group", severity := "error",
    message := "Circular co-run dependency detected: " ++ String.intercalate " → " cycle,
    entityType := "tasks", entityId := none, field := none,
    suggestion := some "Remove conflicting co-run rules to break the cycle" }

/-- `if (!graph[k]) graph[k] = new Set()`. -/
def graphEnsure (g : List (String × List String)) (k : String) : List (String × List String) :=
  if (g.lookup k).isSome then g else g ++ [(k, [])]

/-- `graph[k].add(v)`. -/
def graphAddEdge (g : List (String × List String)) (k v : String) : List (String × List String) :=
  g.map (fun p => if p.1 == k then (p.1, setAddStr p.2 v) else p)

/-- The mutual-dependency graph of validation 12: inside every active
coRun rule, every ordered pair of distinct member ids becomes an edge. -/
def buildCoRunGraph (coRunRules : List BusinessRule) : List (String × List String) :=
  coRunRules.foldl (fun g rule =>
    let taskIds := rule.parameters.taskIds.getD []
    taskIds.foldl (fun g t1 =>
      let g := graphEnsure g t1
      taskIds.foldl (fun g t2 => if t1 != t2 then graphAddEdge g t1 t2 else g) g) g) []

mutual

/-- The recursive `hasCycle` of validation 12.  The fuel only bounds
recursion depth: every recursing frame permanently marks a fresh node
visited, so the depth never exceeds the node count plus one, and the
engine passes enough fuel for exhaustion to be unreachable. -/
def hasCycle (graph : List (String × List String)) (fuel : Nat) (node : String)
    (path : List String) (st : DfsState) : Bool × DfsState :=
  if h : fuel = 0 then (false, st)
  else if st.recStack.contains node then
    let cycleStart := jsIndexOfStr path node
    let cycle := jsSlice path cycleStart ++ [node]
    (true, { st with findings := st.findings ++ [mkCircularFinding cycle] })
  else if st.visited.contains node then (false, st)
  else
    let st1 : DfsState :=
      { visited := st.visited ++ [node], recStack := st.recStack ++ [node],
        findings := st.findings }
    let r := dfsNeighbors graph (fuel - 1) ((graph.lookup node).getD []) node path st1
    if r.1 then r
    else (false, { r.2 with recStack := r.2.recStack.erase node })
termination_by (fuel, 0)
decreasing_by apply Prod.Lex.left; omega

/-- The `for (const neighbor of neighbors)` loop with its early
`return true` (a found cycle stops the loop and skips the recursion
stack cleanup). -/
def dfsNeighbors (graph : List (String × List String)) (fuel : Nat)
    (neighbors : List String) (node : String) (path : List String) (st : DfsState) :
    Bool × DfsState :=
  match neighbors with
  | [] => (false, st)
  | nbr :: rest =>
    let r := hasCycle graph fuel nbr (path ++ [node]) st
    if r.1 then r
    else dfsNeighbors graph fuel rest node path r.2
termination_by (fuel, neighbors.length + 1)
decreasing_by all_goals (simp_wf; apply Prod.Lex.right; omega)

end

/-- One iteration of the `Object.keys(graph).forEach` driver loop of
validation 12: start a DFS from every not-yet-visited node. -/
def circRootStep (graph : List (String × List String)) (st : DfsState) (taskId : String) :
    DfsState :=
  if st.visited.contains taskId then st
  else (hasCycle graph (graph.length + 2) taskId [] st).2

/-- Validation 12: circular co-run group detection. -/
def validateCircularCoRunGroups (rules : List BusinessRule) : List ValidationResult :=
  let coRunRules := rules.filter (fun rule => rule.type == "coRun" && rule.isActive)
  if coRunRules.isEmpty then []
  else
    let graph := buildCoRunGraph coRunRules
    let final := (graph.map Prod.fst).foldl (circRootStep graph)
      { visited := [], recStack := [], findings := [] }
    final.findings

/-! ## Validation 13: co-run vs phase-window conflicts -/

/-- JS `container.includes(x)`: element equality on arrays, substring
(of the coerced argument) on strings, a throw elsewhere. -/
def jsIncludes (container x : JVal) : Except String Bool :=
  match container with
  | .arr xs => .ok (xs.toList.any (fun v => jsStrictEq v x))
  | .str s => .ok (strHasSub s (jsToString x))
  | _ => .error "TypeError: includes is not a function"

/-- `commonPhases.filter(phase => otherPhases.includes(phase))`:
throws unless the receiver is an array; a throwing element test
propagates. -/
def jsFilterIncludes (commonPhases otherPhases : JVal) : Except String JVal :=
  match commonPhases with
  | .arr xs =>
    match xs.toList.foldlM (fun acc v =>
      match jsIncludes otherPhases v with
      | .ok true => Except.ok (acc ++ [v])
      | .ok false => Except.ok acc
      | .error e => Except.error e) ([] : List JVal) with
    | .ok l => .ok (.arr (JArr.ofList l))
    | .error e => .error e
  | _ => .error "TypeError: filter is not a function"

/-- Validation 13, per member task: the allowed-phase set — from a
matching active phaseWindow rule, else from a truthy `PreferredPhases`
via the conflict-side inline parser, else `[1,2,3,4,5]`. -/
def taskPhaseConstraint (phaseWindowRules : List BusinessRule) (tasks : List Entity)
    (taskId : String) : Except String JVal :=
  match phaseWindowRules.find? (fun rule => rule.parameters.taskId == some taskId) with
  | some phaseWindowRule =>
    .ok (.arr (JArr.ofList ((phaseWindowRule.parameters.allowedPhases.getD []).map JVal.num)))
  | none =>
    match tasks.find? (fun t => jsStrictEq (getField t "TaskID") (.str taskId)) with
    | some task =>
      let pp := getField task "PreferredPhases"
      if truthy pp then
        match pp with
        | .str s => .ok (conflictPreferredPhases s)
        | .arr xs =>
          let elems := xs.toList
          if (elems.any (fun v => jsStrictEq v (.str "["))) &&
             (elems.any (fun v => jsStrictEq v (.str "]"))) then
            .ok (match jsonParseVal (.arr xs) with
                 | some v => v
                 | none => .arr (JArr.ofList ([1, 2, 3, 4, 5].map JVal.num)))
          else if elems.any (fun v => jsStrictEq v (.str "-")) then
            .error "TypeError: split is not a function"
          else .ok (.arr (JArr.ofList ([1, 2, 3, 4, 5].map JVal.num)))
        | _ => .error "TypeError: includes is not a function"
      else .ok (.arr (JArr.ofList ([1, 2, 3, 4, 5].map JVal.num)))
    | none => .ok (.arr (JArr.ofList ([1, 2, 3, 4, 5].map JVal.num)))

/-- Validation 13, per coRun rule: build the per-member constraint map,
intersect across members, and report an empty intersection. -/
def ruleConflictForRule (phaseWindowRules : List BusinessRule) (tasks : List Entity)
    (coRunRule : BusinessRule) : List ValidationResult × Option String :=
  let coRunTasks := coRunRule.parameters.taskIds.getD []
  match coRunTasks.foldlM (fun (m : JMap) taskId =>
      match taskPhaseConstraint phaseWindowRules tasks taskId with
      | .ok phases => Except.ok (objSet m taskId phases)
      | .error e => Except.error e) ([] : JMap) with
  | .error e => ([], some e)
  | .ok taskPhaseConstraints =>
    let taskIds := taskPhaseConstraints.map Prod.fst
    if taskIds.length > 1 then
      let init := truthyOr (objGet taskPhaseConstraints (taskIds.headD "")) (.arr .nil)
      match (taskIds.drop 1).foldlM (fun common tid =>
          jsFilterIncludes common (truthyOr (objGet taskPhaseConstraints tid) (.arr .nil)))
          init with
      | .error e => ([], some e)
      | .ok commonPhases =>
        if jsLengthIsZero commonPhases then
          ([{ type := "conflicting_rules", severity := "error",
              message := "Co-run rule for tasks [" ++ String.intercalate ", " coRunTasks ++
                "] conflicts with phase-window constraints - no common phases available",
              entityType := "tasks", entityId := none, field := none,
              suggestion := some "Modify phase-window rules or remove co-run constraint for conflicting tasks" }],
           none)
        else ([], none)
    else ([], none)

/-- Validation 13: co-run vs phase-window conflicts.  Needs at least
one active rule of each kind; a throw stops the loop but keeps the
findings pushed for earlier co-run rules. -/
def validateRuleConflicts (rules : List BusinessRule) (tasks : List Entity) :
    List ValidationResult × Option String :=
  let coRunRules := rules.filter (fun rule => rule.type == "coRun" && rule.isActive)
  let phaseWindowRules := rules.filter (fun rule => rule.type == "phaseWindow" && rule.isActive)
  if coRunRules.isEmpty || phaseWindowRules.isEmpty then ([], none)
  else
    coRunRules.foldl (fun acc coRunRule =>
      seqChecks acc (ruleConflictForRule phaseWindowRules tasks coRunRule)) ([], none)

/-! ## The validateData pipeline -/

/-- Lines 14-19 of `validateData`: the four client checks, when the
clients collection is present (a present empty array still runs). -/
def clientsBlock (data : EntityData) : List ValidationResult :=
  match data.clients with
  | some clients =>
    validateRequiredColumns clients "clients" ++ validateUniqueIds clients "clients" ++
      validatePriorityLevels clients ++ validateAttributesJSON clients
  | none => []

/-- Lines 21-26 of `validateData`: the four worker checks (note that
the overloaded-workers check runs here, inside the per-entity stage). -/
def workersBlock (data : EntityData) : List ValidationResult :=
  match data.workers with
  | some workers =>
    validateRequiredColumns workers "workers" ++ validateUniqueIds workers "workers" ++
      validateAvailableSlots workers ++ validateOverloadedWorkers workers
  | none => []

/-- Lines 28-32 of `validateData`: the three task checks. -/
def tasksBlock (data : EntityData) : List ValidationResult :=
  match data.tasks with
  | some tasks =>
    validateRequiredColumns tasks "tasks" ++ validateUniqueIds tasks "tasks" ++
      validateTaskDuration tasks
  | none => []

/-- Lines 14-32: the whole per-entity stage, clients then workers then
tasks. -/
def perEntityChecks (data : EntityData) : List ValidationResult :=
  clientsBlock data ++ workersBlock data ++ tasksBlock data

/-- Lines 34-43: the cross-entity stage — task references when clients
and tasks are both present, then the three worker/task checks when
workers and tasks are both present. -/
def crossEntityChecks (data : EntityData) : List ValidationResult × Option String :=
  seqChecks
    ((match data.clients, data.tasks with
      | some clients, some tasks => validateTaskReferences clients tasks
      | _, _ => []), none)
    (match data.workers, data.tasks with
     | some workers, some tasks =>
       seqChecks (validateSkillCoverage workers tasks)
         (seqChecks (validateMaxConcurrency workers tasks)
           (validatePhaseSlotSaturation workers tasks))
     | _, _ => ([], none))

/-- Lines 45-47: the rule-consistency stage (always runs; the conflict
check receives `data.tasks || []`). -/
def ruleChecks (rules : List BusinessRule) (data : EntityData) :
    List ValidationResult × Option String :=
  seqChecks (validateCircularCoRunGroups rules, none)
    (validateRuleConflicts rules (data.tasks.getD []))

/-- The body of `validateData` (lines 7-50): per-entity checks, then
cross-entity checks, then rule checks.  First component: the findings
accumulator (`this.validationResults`); second: an escaped TypeError,
if any. -/
def collectFindings (data : EntityData) (rules : List BusinessRule) :
    List ValidationResult × Option String :=
  seqChecks (perEntityChecks data, none)
    (seqChecks (crossEntityChecks data) (ruleChecks rules data))

/-- The engine class: one findings array reused across calls. -/
structure ValidationEngine where
  validationResults : List ValidationResult

/-- `validateData`: reset the accumulator (`this.validationResults =
[]`), run the checks, return the accumulator together with the updated
engine.  On a modelled throw, the engine keeps the findings pushed
before it and the call returns the error instead of a list. -/
def ValidationEngine.validateData (_e : ValidationEngine) (data : EntityData)
    (rules : List BusinessRule) :
    (List ValidationResult × Option String) × ValidationEngine :=
  let r := collectFindings data rules
  (r, { validationResults := r.1 })

/-! ## Finding-type vocabulary of the three stages, and concrete data -/

/-- The finding types the per-entity stage can emit (clients, workers,
tasks blocks; the worker-overload check runs in the workers block). -/
def perEntityTypes : List String :=
  ["missing_columns", "duplicate_id", "invalid_priority", "invalid_json",
   "non_json_attributes", "unparseable_slots", "invalid_slots_format",
   "invalid_slot_values", "overloaded_worker", "invalid_duration"]

/-- The per-entity finding types only the clients block can emit. -/
def clientOnlyTypes : List String :=
  ["invalid_priority", "invalid_json", "non_json_attributes"]

/-- The per-entity finding types only the workers block can emit. -/
def workerOnlyTypes : List String :=
  ["unparseable_slots", "invalid_slots_format", "invalid_slot_values",
   "overloaded_worker"]

/-- The per-entity finding type only the tasks block can emit. -/
def taskOnlyTypes : List String :=
  ["invalid_duration"]

/-- The finding types the cross-entity stage can emit. -/
def crossEntityTypes : List String :=
  ["missing_task_references", "missing_skill_coverage",
   "max_concurrency_infeasible", "phase_slot_saturation"]

/-- The finding types the rule-consistency stage can emit. -/
def ruleCheckTypes : List String :=
  ["circular_corun_group", "conflicting_rules"]

/-- The three AvailableSlots failure finding types. -/
def slotsFindingTypes : List String :=
  ["unparseable_slots", "invalid_slots_format", "invalid_slot_values"]

/-- `Array.isArray`. -/
def isArrVal : JVal → Bool
  | .arr _ => true
  | _ => false

/-- A demand-map key that survives the reporting loop's
`parseInt`-then-stringify round trip (true for every key produced by
number-valued phases). -/
def canonicalKey (k : String) : Bool :=
  match parseIntJS k with
  | some n => toString n == k
  | none => false

/-- A client row with full columns and the given `PriorityLevel`. -/
def clientPL (p : JVal) : Entity :=
  [("ClientID", .str "C1"), ("ClientName", .str "Ada"), ("PriorityLevel", p),
   ("RequestedTaskIDs", .str "")]

/-- A task row with full columns and the given `Duration`. -/
def taskDur (d : JVal) : Entity :=
  [("TaskID", .str "T1"), ("TaskName", .str "Build"), ("Duration", d),
   ("RequiredSkills", .str "")]

/-- One client and one task with the given priority and duration. -/
def boundaryData (p d : JVal) : EntityData :=
  { clients := some [clientPL p], workers := none, tasks := some [taskDur d] }

/-- A worker with one slot but a max load of five (overloaded). -/
def workerOverloaded : Entity :=
  [("WorkerID", .str "W1"), ("WorkerName", .str "Wu"), ("Skills", .str "dev"),
   ("AvailableSlots", .str "[1]"), ("MaxLoadPerPhase", .num 5)]

/-- A task with a negative (invalid) duration. -/
def taskNegDuration : Entity :=
  [("TaskID", .str "T1"), ("TaskName", .str "Build"), ("Duration", .num (-1)),
   ("RequiredSkills", .str "dev")]

/-- Workers and tasks triggering both an overload and a bad duration. -/
def overloadDurationData : EntityData :=
  { clients := none, workers := some [workerOverloaded], tasks := some [taskNegDuration] }

/-- A client with full columns, a bad priority, and a dangling task
reference, next to a schema-poor task list. -/
def orderWitnessData : EntityData :=
  { clients := some [[("ClientID", .str "C1"), ("ClientName", .str "Ada"),
      ("PriorityLevel", .num 7), ("RequestedTaskIDs", .str "T9")]],
    workers := none,
    tasks := some [[("TaskID", .str "T1"), ("TaskName", .str "Build"),
      ("Duration", .num 1), ("RequiredSkills", .str "")]] }

/-- A worker whose `Skills` holds a number: `Skills.split` throws. -/
def workerNumericSkills : Entity :=
  [("WorkerID", .str "W1"), ("WorkerName", .str "Wu"), ("Skills", .num 5),
   ("AvailableSlots", .str "[1]"), ("MaxLoadPerPhase", .num 1)]

/-- Malformed data on which the engine throws: a worker with numeric
`Skills` together with a task that demands a skill. -/
def throwingData : EntityData :=
  { clients := none,
    workers := some [workerNumericSkills],
    tasks := some [[("TaskID", .str "T1"), ("TaskName", .str "Build"),
      ("Duration", .num 1), ("RequiredSkills", .str "x")]] }

/-- The one-task fixture of the saturation example: Duration 5,
PreferredPhases "1-2". -/
def saturationTask : Entity :=
  [("TaskID", .str "T1"), ("TaskName", .str "Build"), ("Duration", .num 5),
   ("RequiredSkills", .str ""), ("PreferredPhases", .str "1-2")]

/-- The saturation example: one task, a present but empty workers
collection. -/
def saturationData : EntityData :=
  { clients := none, workers := some [], tasks := some [saturationTask] }

/-- A task whose PreferredPhases JSON-parses to the non-numeric phase
list `["1a"]`. -/
def nonCanonicalTask : Entity :=
  [("TaskID", .str "T1"), ("TaskName", .str "Build"), ("Duration", .num 5),
   ("RequiredSkills", .str ""), ("PreferredPhases", .str "[\"1a\"]")]

/-- A worker with unparseable slots, for the classification witness. -/
def workerBadSlots : Entity :=
  [("WorkerID", .str "W1"), ("AvailableSlots", .str "nope")]

/-- One active coRun rule over the given member ids. -/
def mkCoRunRule (ids : List String) : BusinessRule :=
  { id := "r1", type := "coRun", name := "corun", description := "",
    parameters := { taskIds := some ids, taskId := none, allowedPhases := none },
    isActive := true, createdAt := "2024-01-01" }

/-- A worker whose `AvailableSlots` is absent and whose max load is 3. -/
def workerNoSlots : Entity :=
  [("WorkerID", .str "W1"), ("WorkerName", .str "Wu"), ("Skills", .str "dev"),
   ("MaxLoadPerPhase", .num 3)]

/-- Data for the missing-slots overload witness. -/
def noSlotsData : EntityData :=
  { clients := none, workers := some [workerNoSlots], tasks := none }

/-- Clients-only data with a schema-poor row (used to witness the
absent-collection gate). -/
def gateWitnessData : EntityData :=
  { clients := some [[("ClientID", .str "C1")]], workers := none, tasks := none }

/-- The single finding `validateData` emits on `gateWitnessData`. -/
def gateWitnessFinding : ValidationResult :=
  { type := "missing_columns", severity := "error",
    message := "Missing required columns: ClientName, PriorityLevel, RequestedTaskIDs",
    entityType := "clients", entityId := none, field := none,
    suggestion := some "Add the missing columns to your clients data" }

/-- The overload finding for a worker with zero slots and max load m. -/
def overloadedFindingFor (w : Entity) (m : Int) : ValidationResult :=
  { type := "overloaded_worker", severity := "error",
    message := "Worker has 0 available slots but max load is " ++ toString m,
    entityType := "workers", entityId := some (getField w "WorkerID"),
    field := some "MaxLoadPerPhase",
    suggestion := some "Reduce MaxLoadPerPhase to 0 or add more available slots" }

/-- The saturation finding for a canonical demand key `k`. -/
def satFinding (k : String) (demand capacity : JVal) : ValidationResult :=
  { type := "phase_slot_saturation", severity := "error",
    message := "Phase " ++ k ++ " is overloaded: " ++ jsToString demand ++
      " task duration units vs " ++ jsToString capacity ++ " worker capacity",
    entityType := "tasks", entityId := none, field := some "PreferredPhases",
    suggestion := some ("Redistribute tasks from phase " ++ k ++ " or increase worker capacity") }

/-! ## Which finding types each check can emit -/

theorem validateRequiredColumns_types (es : List Entity) (et : String) :
    ∀ f ∈ validateRequiredColumns es et, f.type = "missing_columns" := by
  intro f hf
  unfold validateRequiredColumns at hf
  repeat' split at hf
  all_goals simp_all

theorem validateUniqueIds_types (es : List Entity) (et : String) :
    ∀ f ∈ validateUniqueIds es et, f.type = "duplicate_id" := by
  intro f hf
  unfold validateUniqueIds at hf
  split at hf
  · simp_all
  · simp only [List.mem_map] at hf
    obtain ⟨d, _, hd⟩ := hf
    simp [← hd]

theorem validatePriorityLevels_types (clients : List Entity) :
    ∀ f ∈ validatePriorityLevels clients, f.type = "invalid_priority" := by
  intro f hf
  simp only [validatePriorityLevels, List.mem_flatMap] at hf
  obtain ⟨c, _, hf⟩ := hf
  split at hf <;> simp_all

theorem validateAttributesJSON_types (clients : List Entity) :
    ∀ f ∈ validateAttributesJSON clients,
      f.type = "invalid_json" ∨ f.type = "non_json_attributes" := by
  intro f hf
  simp only [validateAttributesJSON, List.mem_flatMap] at hf
  obtain ⟨c, _, hf⟩ := hf
  repeat' split at hf
  all_goals simp_all

theorem validateAvailableSlots_types (workers : List Entity) :
    ∀ f ∈ validateAvailableSlots workers,
      f.type = "unparseable_slots" ∨ f.type = "invalid_slots_format" ∨
        f.type = "invalid_slot_values" := by
  intro f hf
  simp only [validateAvailableSlots, List.mem_flatMap] at hf
  obtain ⟨w, _, hf⟩ := hf
  repeat' split at hf
  all_goals simp_all

theorem validateOverloadedWorkers_types (workers : List Entity) :
    ∀ f ∈ validateOverloadedWorkers workers, f.type = "overloaded_worker" := by
  intro f hf
  simp only [validateOverloadedWorkers, List.mem_flatMap] at hf
  obtain ⟨w, _, hf⟩ := hf
  repeat' split at hf
  all_goals simp_all

theorem validateTaskDuration_types (tasks : List Entity) :
    ∀ f ∈ validateTaskDuration tasks, f.type = "invalid_duration" := by
  intro f hf
  simp only [validateTaskDuration, List.mem_flatMap] at hf
  obtain ⟨t, _, hf⟩ := hf
  split at hf <;> simp_all

theorem validateTaskReferences_types (clients tasks : List Entity) :
    ∀ f ∈ validateTaskReferences clients tasks, f.type = "missing_task_references" := by
  intro f hf
  simp only [validateTaskReferences, List.mem_flatMap] at hf
  obtain ⟨c, _, hf⟩ := hf
  repeat' split at hf
  all_goals simp_all

theorem seqChecks_mem (a b : List ValidationResult × Option String) :
    ∀ f ∈ (seqChecks a b).1, f ∈ a.1 ∨ f ∈ b.1 := by
  intro f hf
  rcases a with ⟨l, e⟩
  rcases e with _ | e
  · simp only [seqChecks] at hf
    exact (List.mem_append.mp hf).imp id id
  · simp only [seqChecks] at hf
    exact Or.inl hf

theorem skillCoverageTasks_types (sk : List String) (ts : List Entity) :
    ∀ f ∈ (skillCoverageTasks sk ts).1, f.type = "missing_skill_coverage" := by
  induction ts with
  | nil => simp [skillCoverageTasks]
  | cons t rest ih =>
    intro f hf
    unfold skillCoverageTasks at hf
    by_cases ht : truthy (getField t "RequiredSkills") = true
    · rw [if_pos ht] at hf
      cases hsp : jsSplitComma (getField t "RequiredSkills") with
      | error e => rw [hsp] at hf; simp at hf
      | ok parts =>
        rw [hsp] at hf
        rcases seqChecks_mem _ _ f hf with h | h
        · simp only at h
          split at h <;> simp_all
        · exact ih f h
    · rw [if_neg ht] at hf
      exact ih f hf

theorem validateSkillCoverage_types (workers tasks : List Entity) :
    ∀ f ∈ (validateSkillCoverage workers tasks).1, f.type = "missing_skill_coverage" := by
  intro f hf
  unfold validateSkillCoverage at hf
  split at hf
  · simp_all
  · exact skillCoverageTasks_types _ _ f hf

theorem maxConcurrencyTasks_types (workers : List Entity) (ts : List Entity) :
    ∀ f ∈ (maxConcurrencyTasks workers ts).1, f.type = "max_concurrency_infeasible" := by
  induction ts with
  | nil => simp [maxConcurrencyTasks]
  | cons t rest ih =>
    intro f hf
    simp only [maxConcurrencyTasks] at hf
    by_cases ht : (truthy (getField t "MaxConcurrent") &&
        truthy (getField t "RequiredSkills")) = true
    · rw [if_pos ht] at hf
      cases hsp : jsSplitComma (getField t "RequiredSkills") with
      | error e => rw [hsp] at hf; simp at hf
      | ok parts =>
        rw [hsp] at hf
        simp only [] at hf
        cases hq : qualifiedWorkersFor workers (parts.map (fun p => strToLower (strTrim p))) with
        | error e => rw [hq] at hf; simp at hf
        | ok qualified =>
          rw [hq] at hf
          rcases seqChecks_mem _ _ f hf with h | h
          · simp only at h
            split at h <;> simp_all
          · exact ih f h
    · rw [if_neg ht] at hf
      exact ih f hf

theorem validateMaxConcurrency_types (workers tasks : List Entity) :
    ∀ f ∈ (validateMaxConcurrency workers tasks).1, f.type = "max_concurrency_infeasible" := by
  intro f hf
  exact maxConcurrencyTasks_types workers tasks f hf

theorem mkSaturationFinding_types (dem cap : JMap) (k : String) :
    ∀ f ∈ mkSaturationFinding dem cap k, f.type = "phase_slot_saturation" := by
  intro f hf
  unfold mkSaturationFinding at hf
  split at hf <;> simp_all

theorem validatePhaseSlotSaturation_types (workers tasks : List Entity) :
    ∀ f ∈ (validatePhaseSlotSaturation workers tasks).1, f.type = "phase_slot_saturation" := by
  intro f hf
  unfold validatePhaseSlotSaturation at hf
  split at hf
  · simp_all
  · simp only [List.mem_flatMap] at hf
    obtain ⟨k, _, hf⟩ := hf
    exact mkSaturationFinding_types _ _ k f hf

theorem ruleConflictForRule_types (pw : List BusinessRule) (tasks : List Entity)
    (r : BusinessRule) :
    ∀ f ∈ (ruleConflictForRule pw tasks r).1, f.type = "conflicting_rules" := by
  intro f hf
  simp only [ruleConflictForRule] at hf
  cases hm : (r.parameters.taskIds.getD []).foldlM (fun (m : JMap) taskId =>
      match taskPhaseConstraint pw tasks taskId with
      | .ok phases => Except.ok (objSet m taskId phases)
      | .error e => Except.error e) ([] : JMap) with
  | error e => rw [hm] at hf; simp at hf
  | ok m =>
    rw [hm] at hf
    simp only [] at hf
    by_cases hlen : (List.map Prod.fst m).length > 1
    · rw [if_pos hlen] at hf
      cases hfold : List.foldlM (fun common tid =>
          jsFilterIncludes common (truthyOr (objGet m tid) (JVal.arr JArr.nil)))
          (truthyOr (objGet m ((List.map Prod.fst m).headD "")) (JVal.arr JArr.nil))
          (List.drop 1 (List.map Prod.fst m)) with
      | error e => rw [hfold] at hf; simp at hf
      | ok commonPhases =>
        rw [hfold] at hf
        simp only [] at hf
        split at hf <;> simp_all
    · rw [if_neg hlen] at hf
      simp at hf

theorem foldlRuleConflicts_types (pws : List BusinessRule) (tasks : List Entity)
    (cos : List BusinessRule) :
    ∀ (acc : List ValidationResult × Option String),
      (∀ g ∈ acc.1, g.type = "conflicting_rules") →
      ∀ f ∈ (cos.foldl (fun acc r => seqChecks acc (ruleConflictForRule pws tasks r)) acc).1,
        f.type = "conflicting_rules" := by
  induction cos with
  | nil => intro acc hbase f hf; exact hbase f hf
  | cons r rest ih =>
    intro acc hbase f hf
    simp only [List.foldl_cons] at hf
    refine ih _ ?_ f hf
    intro g hg
    rcases seqChecks_mem _ _ g hg with hg | hg
    · exact hbase g hg
    · exact ruleConflictForRule_types pws tasks r g hg

theorem validateRuleConflicts_types (rules : List BusinessRule) (tasks : List Entity) :
    ∀ f ∈ (validateRuleConflicts rules tasks).1, f.type = "conflicting_rules" := by
  intro f hf
  simp only [validateRuleConflicts] at hf
  split at hf
  · simp_all
  · exact foldlRuleConflicts_types _ tasks _ _ (by simp) f hf

theorem dfsNeighbors_findings_of (g : List (String × List String)) (fuel : Nat)
    (hA : ∀ node path (st : DfsState), ∃ t,
      (hasCycle g fuel node path st).2.findings = st.findings ++ t ∧
        ∀ f ∈ t, f.type = "circular_corun_group") :
    ∀ (nbrs : List String) (node : String) (path : List String) (st : DfsState), ∃ t,
      (dfsNeighbors g fuel nbrs node path st).2.findings = st.findings ++ t ∧
        ∀ f ∈ t, f.type = "circular_corun_group" := by
  intro nbrs
  induction nbrs with
  | nil => exact fun node path st => ⟨[], by simp [dfsNeighbors], by simp⟩
  | cons nbr rest ih =>
    intro node path st
    obtain ⟨t1, h1, ht1⟩ := hA nbr (path ++ [node]) st
    by_cases hr : (hasCycle g fuel nbr (path ++ [node]) st).1 = true
    · exact ⟨t1, by simp [dfsNeighbors, hr, h1], ht1⟩
    · obtain ⟨t2, h2, ht2⟩ := ih node path (hasCycle g fuel nbr (path ++ [node]) st).2
      refine ⟨t1 ++ t2, ?_, ?_⟩
      · simp only [dfsNeighbors]
        rw [if_neg hr, h2, h1, List.append_assoc]
      · intro f hf
        rcases List.mem_append.mp hf with h | h
        exacts [ht1 f h, ht2 f h]

theorem hasCycle_findings (g : List (String × List String)) :
    ∀ (fuel : Nat) (node : String) (path : List String) (st : DfsState), ∃ t,
      (hasCycle g fuel node path st).2.findings = st.findings ++ t ∧
        ∀ f ∈ t, f.type = "circular_corun_group" := by
  intro fuel
  induction fuel with
  | zero => exact fun node path st => ⟨[], by simp [hasCycle], by simp⟩
  | succ n ih =>
    intro node path st
    by_cases h1 : node ∈ st.recStack
    · refine ⟨[mkCircularFinding (jsSlice path (jsIndexOfStr path node) ++ [node])], ?_, ?_⟩
      · simp [hasCycle, h1]
      · intro f hf
        simp only [List.mem_singleton] at hf
        subst hf; rfl
    · by_cases h2 : node ∈ st.visited
      · exact ⟨[], by simp [hasCycle, h1, h2], by simp⟩
      · obtain ⟨t, hT, htT⟩ := dfsNeighbors_findings_of g n ih ((g.lookup node).getD [])
          node path
          { visited := st.visited ++ [node], recStack := st.recStack ++ [node],
            findings := st.findings }
        by_cases hr : (dfsNeighbors g n ((g.lookup node).getD []) node path
            { visited := st.visited ++ [node], recStack := st.recStack ++ [node],
              findings := st.findings }).1 = true
        · refine ⟨t, ?_, htT⟩
          simp only [hasCycle, Nat.add_sub_cancel]
          simp [h1, h2, hr]
          simpa using hT
        · refine ⟨t, ?_, htT⟩
          simp only [hasCycle, Nat.add_sub_cancel]
          simp [h1, h2, hr]
          simpa using hT

theorem circRootStep_findings (g : List (String × List String)) (st : DfsState) (k : String) :
    ∃ t, (circRootStep g st k).findings = st.findings ++ t ∧
      ∀ f ∈ t, f.type = "circular_corun_group" := by
  unfold circRootStep
  split
  · exact ⟨[], by simp, by simp⟩
  · exact hasCycle_findings g (g.length + 2) k [] st

theorem circFold_findings (g : List (String × List String)) (keys : List String) :
    ∀ st : DfsState, ∃ t, (keys.foldl (circRootStep g) st).findings = st.findings ++ t ∧
      ∀ f ∈ t, f.type = "circular_corun_group" := by
  induction keys with
  | nil => exact fun st => ⟨[], by simp, by simp⟩
  | cons k rest ih =>
    intro st
    obtain ⟨t1, h1, ht1⟩ := circRootStep_findings g st k
    obtain ⟨t2, h2, ht2⟩ := ih (circRootStep g st k)
    refine ⟨t1 ++ t2, ?_, ?_⟩
    · simp only [List.foldl_cons]
      rw [h2, h1, List.append_assoc]
    · intro f hf
      rcases List.mem_append.mp hf with h | h
      exacts [ht1 f h, ht2 f h]

theorem validateCircularCoRunGroups_types (rules : List BusinessRule) :
    ∀ f ∈ validateCircularCoRunGroups rules, f.type = "circular_corun_group" := by
  intro f hf
  simp only [validateCircularCoRunGroups] at hf
  split at hf
  · simp_all
  · obtain ⟨t, hT, htT⟩ := circFold_findings (buildCoRunGraph
      (rules.filter fun rule => rule.type == "coRun" && rule.isActive))
      ((buildCoRunGraph (rules.filter fun rule => rule.type == "coRun" && rule.isActive)).map
        Prod.fst) { visited := [], recStack := [], findings := [] }
    rw [hT] at hf
    simp only [List.nil_append] at hf
    exact htT f hf

theorem clientsBlock_types (data : EntityData) :
    ∀ f ∈ clientsBlock data, f.type ∈ ["missing_columns", "duplicate_id",
      "invalid_priority", "invalid_json", "non_json_attributes"] := by
  intro f hf
  unfold clientsBlock at hf
  split at hf
  · simp only [List.mem_append] at hf
    rcases hf with ((h | h) | h) | h
    · simp [validateRequiredColumns_types _ _ f h]
    · simp [validateUniqueIds_types _ _ f h]
    · simp [validatePriorityLevels_types _ f h]
    · rcases validateAttributesJSON_types _ f h with h2 | h2 <;> simp [h2]
  · simp at hf

theorem workersBlock_types (data : EntityData) :
    ∀ f ∈ workersBlock data, f.type ∈ ["missing_columns", "duplicate_id",
      "unparseable_slots", "invalid_slots_format", "invalid_slot_values",
      "overloaded_worker"] := by
  intro f hf
  unfold workersBlock at hf
  split at hf
  · simp only [List.mem_append] at hf
    rcases hf with ((h | h) | h) | h
    · simp [validateRequiredColumns_types _ _ f h]
    · simp [validateUniqueIds_types _ _ f h]
    · rcases validateAvailableSlots_types _ f h with h2 | h2 | h2 <;> simp [h2]
    · simp [validateOverloadedWorkers_types _ f h]
  · simp at hf

theorem tasksBlock_types (data : EntityData) :
    ∀ f ∈ tasksBlock data, f.type ∈ ["missing_columns", "duplicate_id",
      "invalid_duration"] := by
  intro f hf
  unfold tasksBlock at hf
  split at hf
  · simp only [List.mem_append] at hf
    rcases hf with (h | h) | h
    · simp [validateRequiredColumns_types _ _ f h]
    · simp [validateUniqueIds_types _ _ f h]
    · simp [validateTaskDuration_types _ f h]
  · simp at hf

theorem crossEntityChecks_types (data : EntityData) :
    ∀ f ∈ (crossEntityChecks data).1, f.type ∈ crossEntityTypes := by
  intro f hf
  unfold crossEntityChecks at hf
  rcases seqChecks_mem _ _ f hf with hf | hf
  · simp only [] at hf
    split at hf
    · simp [validateTaskReferences_types _ _ f hf, crossEntityTypes]
    · simp at hf
  · split at hf
    · rcases seqChecks_mem _ _ f hf with hf | hf
      · simp [validateSkillCoverage_types _ _ f hf, crossEntityTypes]
      · rcases seqChecks_mem _ _ f hf with hf | hf
        · simp [validateMaxConcurrency_types _ _ f hf, crossEntityTypes]
        · simp [validatePhaseSlotSaturation_types _ _ f hf, crossEntityTypes]
    · simp at hf

theorem ruleChecks_types (rules : List BusinessRule) (data : EntityData) :
    ∀ f ∈ (ruleChecks rules data).1, f.type ∈ ruleCheckTypes := by
  intro f hf
  unfold ruleChecks at hf
  rcases seqChecks_mem _ _ f hf with hf | hf
  · simp only [] at hf
    simp [validateCircularCoRunGroups_types _ f hf, ruleCheckTypes]
  · simp [validateRuleConflicts_types _ _ f hf, ruleCheckTypes]

theorem collectFindings_eq (data : EntityData) (rules : List BusinessRule) :
    (collectFindings data rules).1 =
      perEntityChecks data ++
        (seqChecks (crossEntityChecks data) (ruleChecks rules data)).1 := rfl

theorem seqChecks_fst (a b : List ValidationResult × Option String) :
    ∃ x, (seqChecks a b).1 = a.1 ++ x ∧ ∀ f ∈ x, f ∈ b.1 := by
  rcases a with ⟨l, e⟩
  rcases e with _ | e
  · exact ⟨b.1, rfl, fun f hf => hf⟩
  · exact ⟨[], by simp [seqChecks], by simp⟩

theorem idx_lt_of_absent_right (x y : List ValidationResult) (S : List String) (i : Nat)
    (hi : i < (x ++ y).length) (hy : ∀ f ∈ y, f.type ∉ S)
    (hmem : (x ++ y)[i].type ∈ S) : i < x.length := by
  by_contra hle
  push_neg at hle
  rw [List.getElem_append_right hle] at hmem
  exact hy _ (List.getElem_mem _) hmem

theorem le_idx_of_absent_left (x y : List ValidationResult) (S : List String) (j : Nat)
    (hj : j < (x ++ y).length) (hx : ∀ f ∈ x, f.type ∉ S)
    (hmem : (x ++ y)[j].type ∈ S) : x.length ≤ j := by
  by_contra h
  push_neg at h
  rw [List.getElem_append_left h] at hmem
  exact hx _ (List.getElem_mem _) hmem

theorem idx_lt_of_absent_right2 (l x y : List ValidationResult) (S : List String)
    (hl : l = x ++ y) (hy : ∀ f ∈ y, f.type ∉ S) (i : Nat) (hi : i < l.length)
    (hmem : l[i].type ∈ S) : i < x.length := by
  subst hl
  exact idx_lt_of_absent_right x y S i hi hy hmem

theorem le_idx_of_absent_left2 (l x y : List ValidationResult) (S : List String)
    (hl : l = x ++ y) (hx : ∀ f ∈ x, f.type ∉ S) (j : Nat) (hj : j < l.length)
    (hmem : l[j].type ∈ S) : x.length ≤ j := by
  subst hl
  exact le_idx_of_absent_left x y S j hj hx hmem

theorem stage_order_aux (cb wb tb x y : List ValidationResult)
    (hcb : ∀ f ∈ cb, f.type ∈ ["missing_columns", "duplicate_id", "invalid_priority",
      "invalid_json", "non_json_attributes"])
    (hwb : ∀ f ∈ wb, f.type ∈ ["missing_columns", "duplicate_id", "unparseable_slots",
      "invalid_slots_format", "invalid_slot_values", "overloaded_worker"])
    (htb : ∀ f ∈ tb, f.type ∈ ["missing_columns", "duplicate_id", "invalid_duration"])
    (hx : ∀ f ∈ x, f.type ∈ crossEntityTypes)
    (hy : ∀ f ∈ y, f.type ∈ ruleCheckTypes)
    (i j : Nat) (l : List ValidationResult)
    (hl : l = cb ++ wb ++ tb ++ x ++ y)
    (hi : i < l.length) (hj : j < l.length)
    (hcase :
      (l[i].type ∈ perEntityTypes ∧
        (l[j].type ∈ crossEntityTypes ∨ l[j].type ∈ ruleCheckTypes)) ∨
      (l[i].type ∈ crossEntityTypes ∧ l[j].type ∈ ruleCheckTypes) ∨
      (l[i].type ∈ clientOnlyTypes ∧
        (l[j].type ∈ workerOnlyTypes ∨ l[j].type ∈ taskOnlyTypes)) ∨
      (l[i].type ∈ workerOnlyTypes ∧ l[j].type ∈ taskOnlyTypes)) :
    i < j := by
  have hxyNotPer : ∀ f ∈ x ++ y, f.type ∉ perEntityTypes := by
    intro f hf
    rcases List.mem_append.mp hf with h | h
    · exact (by decide : ∀ t ∈ crossEntityTypes, t ∉ perEntityTypes) _ (hx f h)
    · exact (by decide : ∀ t ∈ ruleCheckTypes, t ∉ perEntityTypes) _ (hy f h)
  have hpre1NotCross : ∀ f ∈ cb ++ wb ++ tb, f.type ∉ crossEntityTypes := by
    intro f hf
    rcases List.mem_append.mp hf with h | h
    · rcases List.mem_append.mp h with h | h
      · exact (by decide : ∀ t ∈ ["missing_columns", "duplicate_id", "invalid_priority",
          "invalid_json", "non_json_attributes"], t ∉ crossEntityTypes) _ (hcb f h)
      · exact (by decide : ∀ t ∈ ["missing_columns", "duplicate_id", "unparseable_slots",
          "invalid_slots_format", "invalid_slot_values", "overloaded_worker"],
          t ∉ crossEntityTypes) _ (hwb f h)
    · exact (by decide : ∀ t ∈ ["missing_columns", "duplicate_id", "invalid_duration"],
        t ∉ crossEntityTypes) _ (htb f h)
  have hpre1NotRule : ∀ f ∈ cb ++ wb ++ tb, f.type ∉ ruleCheckTypes := by
    intro f hf
    rcases List.mem_append.mp hf with h | h
    · rcases List.mem_append.mp h with h | h
      · exact (by decide : ∀ t ∈ ["missing_columns", "duplicate_id", "invalid_priority",
          "invalid_json", "non_json_attributes"], t ∉ ruleCheckTypes) _ (hcb f h)
      · exact (by decide : ∀ t ∈ ["missing_columns", "duplicate_id", "unparseable_slots",
          "invalid_slots_format", "invalid_slot_values", "overloaded_worker"],
          t ∉ ruleCheckTypes) _ (hwb f h)
    · exact (by decide : ∀ t ∈ ["missing_columns", "duplicate_id", "invalid_duration"],
        t ∉ ruleCheckTypes) _ (htb f h)
  have hpre2NotRule : ∀ f ∈ cb ++ wb ++ tb ++ x, f.type ∉ ruleCheckTypes := by
    intro f hf
    rcases List.mem_append.mp hf with h | h
    · exact hpre1NotRule f h
    · exact (by decide : ∀ t ∈ crossEntityTypes, t ∉ ruleCheckTypes) _ (hx f h)
  have hyNotCross : ∀ f ∈ y, f.type ∉ crossEntityTypes := by
    intro f hf
    exact (by decide : ∀ t ∈ ruleCheckTypes, t ∉ crossEntityTypes) _ (hy f hf)
  have hpostNotWorker : ∀ f ∈ tb ++ x ++ y, f.type ∉ workerOnlyTypes := by
    intro f hf
    rcases List.mem_append.mp hf with h | h
    · rcases List.mem_append.mp h with h | h
      · exact (by decide : ∀ t ∈ ["missing_columns", "duplicate_id", "invalid_duration"],
          t ∉ workerOnlyTypes) _ (htb f h)
      · exact (by decide : ∀ t ∈ crossEntityTypes, t ∉ workerOnlyTypes) _ (hx f h)
    · exact (by decide : ∀ t ∈ ruleCheckTypes, t ∉ workerOnlyTypes) _ (hy f h)
  have hpreNotTask : ∀ f ∈ cb ++ wb, f.type ∉ taskOnlyTypes := by
    intro f hf
    rcases List.mem_append.mp hf with h | h
    · exact (by decide : ∀ t ∈ ["missing_columns", "duplicate_id", "invalid_priority",
        "invalid_json", "non_json_attributes"], t ∉ taskOnlyTypes) _ (hcb f h)
    · exact (by decide : ∀ t ∈ ["missing_columns", "duplicate_id", "unparseable_slots",
        "invalid_slots_format", "invalid_slot_values", "overloaded_worker"],
        t ∉ taskOnlyTypes) _ (hwb f h)
  have hrestNotClient : ∀ f ∈ wb ++ tb ++ x ++ y, f.type ∉ clientOnlyTypes := by
    intro f hf
    rcases List.mem_append.mp hf with h | h
    · rcases List.mem_append.mp h with h | h
      · rcases List.mem_append.mp h with h | h
        · exact (by decide : ∀ t ∈ ["missing_columns", "duplicate_id", "unparseable_slots",
            "invalid_slots_format", "invalid_slot_values", "overloaded_worker"],
            t ∉ clientOnlyTypes) _ (hwb f h)
        · exact (by decide : ∀ t ∈ ["missing_columns", "duplicate_id", "invalid_duration"],
            t ∉ clientOnlyTypes) _ (htb f h)
      · exact (by decide : ∀ t ∈ crossEntityTypes, t ∉ clientOnlyTypes) _ (hx f h)
    · exact (by decide : ∀ t ∈ ruleCheckTypes, t ∉ clientOnlyTypes) _ (hy f h)
  have hcbNotWorker : ∀ f ∈ cb, f.type ∉ workerOnlyTypes := by
    intro f hf
    exact (by decide : ∀ t ∈ ["missing_columns", "duplicate_id", "invalid_priority",
      "invalid_json", "non_json_attributes"], t ∉ workerOnlyTypes) _ (hcb f hf)
  have hcbNotTask : ∀ f ∈ cb, f.type ∉ taskOnlyTypes := by
    intro f hf
    exact (by decide : ∀ t ∈ ["missing_columns", "duplicate_id", "invalid_priority",
      "invalid_json", "non_json_attributes"], t ∉ taskOnlyTypes) _ (hcb f hf)
  rcases hcase with ⟨hiP, hjCR⟩ | ⟨hiC, hjR⟩ | ⟨hiCl, hjWT⟩ | ⟨hiW, hjT⟩
  · have h1 : i < (cb ++ wb ++ tb).length :=
      idx_lt_of_absent_right2 l (cb ++ wb ++ tb) (x ++ y) perEntityTypes
        (by rw [hl]; simp [List.append_assoc]) hxyNotPer i hi hiP
    rcases hjCR with hjC | hjR
    · have h2 : (cb ++ wb ++ tb).length ≤ j :=
        le_idx_of_absent_left2 l (cb ++ wb ++ tb) (x ++ y) crossEntityTypes
          (by rw [hl]; simp [List.append_assoc]) hpre1NotCross j hj hjC
      omega
    · have h2 : (cb ++ wb ++ tb).length ≤ j :=
        le_idx_of_absent_left2 l (cb ++ wb ++ tb) (x ++ y) ruleCheckTypes
          (by rw [hl]; simp [List.append_assoc]) hpre1NotRule j hj hjR
      omega
  · have h1 : i < (cb ++ wb ++ tb ++ x).length :=
      idx_lt_of_absent_right2 l (cb ++ wb ++ tb ++ x) y crossEntityTypes
        (by rw [hl]) hyNotCross i hi hiC
    have h2 : (cb ++ wb ++ tb ++ x).length ≤ j :=
      le_idx_of_absent_left2 l (cb ++ wb ++ tb ++ x) y ruleCheckTypes
        (by rw [hl]) hpre2NotRule j hj hjR
    omega
  · have h1 : i < cb.length :=
      idx_lt_of_absent_right2 l cb (wb ++ tb ++ x ++ y) clientOnlyTypes
        (by rw [hl]; simp [List.append_assoc]) hrestNotClient i hi hiCl
    rcases hjWT with hjW | hjT
    · have h2 : cb.length ≤ j :=
        le_idx_of_absent_left2 l cb (wb ++ tb ++ x ++ y) workerOnlyTypes
          (by rw [hl]; simp [List.append_assoc]) hcbNotWorker j hj hjW
      omega
    · have h2 : cb.length ≤ j :=
        le_idx_of_absent_left2 l cb (wb ++ tb ++ x ++ y) taskOnlyTypes
          (by rw [hl]; simp [List.append_assoc]) hcbNotTask j hj hjT
      omega
  · have h1 : i < (cb ++ wb).length :=
      idx_lt_of_absent_right2 l (cb ++ wb) (tb ++ x ++ y) workerOnlyTypes
        (by rw [hl]; simp [List.append_assoc]) hpostNotWorker i hi hiW
    have h2 : (cb ++ wb).length ≤ j :=
      le_idx_of_absent_left2 l (cb ++ wb) (tb ++ x ++ y) taskOnlyTypes
        (by rw [hl]; simp [List.append_assoc]) hpreNotTask j hj hjT
    omega

theorem perEntityChecks_types (data : EntityData) :
    ∀ f ∈ perEntityChecks data, f.type ∈ perEntityTypes := by
  intro f hf
  unfold perEntityChecks at hf
  rcases List.mem_append.mp hf with h | h
  · rcases List.mem_append.mp h with h | h
    · exact (by decide : ∀ t ∈ ["missing_columns", "duplicate_id", "invalid_priority",
        "invalid_json", "non_json_attributes"], t ∈ perEntityTypes) _ (clientsBlock_types data f h)
    · exact (by decide : ∀ t ∈ ["missing_columns", "duplicate_id", "unparseable_slots",
        "invalid_slots_format", "invalid_slot_values", "overloaded_worker"],
        t ∈ perEntityTypes) _ (workersBlock_types data f h)
  · exact (by decide : ∀ t ∈ ["missing_columns", "duplicate_id", "invalid_duration"],
      t ∈ perEntityTypes) _ (tasksBlock_types data f h)

theorem crossEntityChecks_no_workers (data : EntityData) (hw : data.workers = none) :
    ∀ f ∈ (crossEntityChecks data).1, f.type = "missing_task_references" := by
  intro f hf
  unfold crossEntityChecks at hf
  rcases seqChecks_mem _ _ f hf with h | h
  · simp only [] at h
    split at h
    · exact validateTaskReferences_types _ _ f h
    · simp at h
  · rw [hw] at h
    simp at h

theorem crossEntityChecks_refs_absent (data : EntityData)
    (h : data.clients = none ∨ data.tasks = none) :
    ∀ f ∈ (crossEntityChecks data).1, f.type ≠ "missing_task_references" := by
  intro f hf
  unfold crossEntityChecks at hf
  rcases seqChecks_mem _ _ f hf with h2 | h2
  · simp only [] at h2
    rcases h with h | h
    · rw [h] at h2; simp at h2
    · rcases hc : data.clients with _ | cs
      · rw [hc] at h2; simp at h2
      · rw [hc, h] at h2; simp at h2
  · split at h2
    · rcases seqChecks_mem _ _ f h2 with h3 | h3
      · simp [validateSkillCoverage_types _ _ f h3]
      · rcases seqChecks_mem _ _ f h3 with h4 | h4
        · simp [validateMaxConcurrency_types _ _ f h4]
        · simp [validatePhaseSlotSaturation_types _ _ f h4]
    · simp at h2

/-- C1 (code refutation): because of the JavaScript truthiness guards
`if (priority && ...)` and `if (duration && ...)`, a `PriorityLevel` of
`0` and a `Duration` of `0` are silently skipped — `validateData`
reports nothing for them — while `PriorityLevel` 6 is flagged and the
valid boundary values 1, 5 and 1 yield no findings. -/
theorem priority_duration_zero_skipped :
    ((collectFindings (boundaryData (.num 0) (.num 0)) []).1 = [] ∧
     (collectFindings (boundaryData (.num 0) (.num 0)) []).2 = none) ∧
    (collectFindings (boundaryData (.num 6) (.num 1)) []).1.map (fun f => f.type) =
      ["invalid_priority"] ∧
    (collectFindings (boundaryData (.num 1) (.num 1)) []).1 = [] ∧
    (collectFindings (boundaryData (.num 5) (.num 1)) []).1 = [] :=
  ⟨⟨rfl, rfl⟩, rfl, rfl, rfl⟩

/-- C2 counterexample: with one overloaded worker and one task with an
invalid duration, `validateData` emits the overloaded_worker finding
at index 0 and the invalid_duration finding at index 1, refuting the
claim that every overloaded_worker finding appears after every
invalid_duration finding. -/
theorem overloaded_worker_precedes_invalid_duration :
    (collectFindings overloadDurationData []).1.map (fun f => f.type) =
      ["overloaded_worker", "invalid_duration"] ∧
    ¬ (∀ (i j : Nat) (hi : i < (collectFindings overloadDurationData []).1.length)
         (hj : j < (collectFindings overloadDurationData []).1.length),
        (collectFindings overloadDurationData []).1[i].type = "overloaded_worker" →
        (collectFindings overloadDurationData []).1[j].type = "invalid_duration" →
        j < i) := by
  refine ⟨rfl, ?_⟩
  intro h
  have h2 := h 0 1 (by decide) (by decide) (by decide) (by decide)
  omega

/-- C2 (amended): the findings of `validateData` come out in the five
source-order segments clients block, workers block, tasks block,
cross-entity checks, rule checks, observable through finding types:
every finding of a clients-only type (invalid_priority, invalid_json,
non_json_attributes) precedes every finding of a workers-only type
(unparseable_slots, invalid_slots_format, invalid_slot_values,
overloaded_worker) and every finding of the tasks-only type
(invalid_duration); every workers-only finding precedes every
tasks-only finding; every per-entity finding — including worker
overload, which the source emits inside the workers per-entity block,
not the cross-entity stage — precedes every cross-entity finding
(task references, skill coverage, max concurrency, phase saturation);
and every cross-entity finding precedes every rule-consistency
finding.  In particular every overloaded_worker finding appears
before every invalid_duration finding, the opposite of the claim. -/
theorem validateData_stage_order (data : EntityData) (rules : List BusinessRule)
    (i j : Nat) (hi : i < (collectFindings data rules).1.length)
    (hj : j < (collectFindings data rules).1.length)
    (hcase :
      ((collectFindings data rules).1[i].type ∈ perEntityTypes ∧
        ((collectFindings data rules).1[j].type ∈ crossEntityTypes ∨
         (collectFindings data rules).1[j].type ∈ ruleCheckTypes)) ∨
      ((collectFindings data rules).1[i].type ∈ crossEntityTypes ∧
        (collectFindings data rules).1[j].type ∈ ruleCheckTypes) ∨
      ((collectFindings data rules).1[i].type ∈ clientOnlyTypes ∧
        ((collectFindings data rules).1[j].type ∈ workerOnlyTypes ∨
         (collectFindings data rules).1[j].type ∈ taskOnlyTypes)) ∨
      ((collectFindings data rules).1[i].type ∈ workerOnlyTypes ∧
        (collectFindings data rules).1[j].type ∈ taskOnlyTypes)) :
    i < j := by
  obtain ⟨Y, hQ, hYmem⟩ := seqChecks_fst (crossEntityChecks data) (ruleChecks rules data)
  refine stage_order_aux (clientsBlock data) (workersBlock data) (tasksBlock data)
    ((crossEntityChecks data).1) Y (clientsBlock_types data) (workersBlock_types data)
    (tasksBlock_types data) (crossEntityChecks_types data)
    (fun f hf => ruleChecks_types rules data f (hYmem f hf)) i j _ ?_ hi hj hcase
  rw [collectFindings_eq, hQ]
  simp [perEntityChecks, List.append_assoc]

/-- C2 witness: on data with an invalid priority at index 0 and a
dangling task reference at index 1, the ordering theorem yields 0 < 1. -/
theorem validateData_stage_order_witness :
    (collectFindings orderWitnessData []).1.map (fun f => f.type) =
      ["invalid_priority", "missing_task_references"] ∧ (0 : Nat) < 1 :=
  ⟨rfl, validateData_stage_order orderWitnessData [] 0 1 (by decide) (by decide)
    (Or.inl ⟨by decide, Or.inl (by decide)⟩)⟩

/-- C4 (code refutation): on a worker whose `Skills` holds the number
5 next to a task that requires a skill, the skill-coverage check calls
`Skills.split` on a non-string and the TypeError escapes
`validateData` instead of becoming a finding. -/
theorem validateData_throws_on_numeric_skills :
    (collectFindings throwingData []).2 = some "TypeError: split is not a function" ∧
    ((ValidationEngine.mk []).validateData throwingData []).1.2 =
      some "TypeError: split is not a function" :=
  ⟨rfl, rfl⟩

/-- C5: determinism and no accumulation: calling `validateData` twice
in a row on the same engine instance returns element-wise equal
finding lists, and the returned list does not depend on the engine's
prior accumulator state at all (the method resets
`this.validationResults` on entry). -/
theorem validateData_deterministic_no_accumulation
    (e e2 : ValidationEngine) (data : EntityData) (rules : List BusinessRule) :
    ((e.validateData data rules).2.validateData data rules).1 = (e.validateData data rules).1 ∧
    (e2.validateData data rules).1 = (e.validateData data rules).1 :=
  ⟨rfl, rfl⟩

/-- C9: absent-collection gating: when the workers collection is
`undefined`, `validateData` emits no missing_skill_coverage,
max_concurrency_infeasible or phase_slot_saturation finding; when
clients or tasks is `undefined`, it emits no missing_task_references
finding. -/
theorem absent_collections_gate (data : EntityData) (rules : List BusinessRule) :
    (data.workers = none → ∀ f ∈ (collectFindings data rules).1,
      f.type ≠ "missing_skill_coverage" ∧ f.type ≠ "max_concurrency_infeasible" ∧
        f.type ≠ "phase_slot_saturation") ∧
    ((data.clients = none ∨ data.tasks = none) →
      ∀ f ∈ (collectFindings data rules).1, f.type ≠ "missing_task_references") := by
  constructor
  · intro hw f hf
    rw [collectFindings_eq] at hf
    rcases List.mem_append.mp hf with h | h
    · have h2 := perEntityChecks_types data f h
      refine ⟨?_, ?_, ?_⟩ <;> (intro he; rw [he] at h2; revert h2; decide)
    · rcases seqChecks_mem _ _ f h with h | h
      · have h2 := crossEntityChecks_no_workers data hw f h
        refine ⟨?_, ?_, ?_⟩ <;> (intro he; rw [he] at h2; exact absurd h2 (by decide))
      · have h2 := ruleChecks_types rules data f h
        refine ⟨?_, ?_, ?_⟩ <;> (intro he; rw [he] at h2; revert h2; decide)
  · intro hct f hf
    rw [collectFindings_eq] at hf
    rcases List.mem_append.mp hf with h | h
    · have h2 := perEntityChecks_types data f h
      intro he; rw [he] at h2; revert h2; decide
    · rcases seqChecks_mem _ _ f h with h | h
      · exact crossEntityChecks_refs_absent data hct f h
      · have h2 := ruleChecks_types rules data f h
        intro he; rw [he] at h2; revert h2; decide

/-- C9 witness: on clients-only data the sole finding is a
missing_columns finding, and the gate theorem confirms it is none of
the worker-gated or reference types. -/
theorem absent_collections_gate_witness :
    gateWitnessFinding.type ≠ "missing_skill_coverage" ∧
    gateWitnessFinding.type ≠ "max_concurrency_infeasible" ∧
    gateWitnessFinding.type ≠ "phase_slot_saturation" ∧
    gateWitnessFinding.type ≠ "missing_task_references" := by
  have hmem : gateWitnessFinding ∈ (collectFindings gateWitnessData []).1 := by
    rw [show (collectFindings gateWitnessData []).1 = [gateWitnessFinding] from rfl]
    exact List.mem_singleton.mpr rfl
  have h1 := (absent_collections_gate gateWitnessData []).1 rfl gateWitnessFinding hmem
  have h2 := (absent_collections_gate gateWitnessData []).2 (Or.inr rfl) gateWitnessFinding hmem
  exact ⟨h1.1, h1.2.1, h1.2.2, h2⟩

/-- C10: a worker whose AvailableSlots is absent (`undefined`) or the
empty string, with a numeric MaxLoadPerPhase m >= 1, is reported by
`validateData` as overloaded with 0 available slots against m: the
missing field is parsed via `|| '[]'` as an empty slot list rather
than skipped. -/
theorem missing_slots_reported_overloaded (data : EntityData) (rules : List BusinessRule)
    (ws : List Entity) (w : Entity) (m : Int)
    (hws : data.workers = some ws) (hw : w ∈ ws)
    (hslots : getField w "AvailableSlots" = JVal.undef ∨
      getField w "AvailableSlots" = JVal.str "")
    (hload : getField w "MaxLoadPerPhase" = JVal.num m) (hm : 1 ≤ m) :
    ∃ f ∈ (collectFindings data rules).1, f.type = "overloaded_worker" ∧
      f.entityId = some (getField w "WorkerID") ∧
      f.message = "Worker has 0 available slots but max load is " ++ toString m := by
  have htr : truthy (getField w "AvailableSlots") = false := by
    rcases hslots with h | h <;> rw [h] <;> rfl
  have hmem : overloadedFindingFor w m ∈ validateOverloadedWorkers ws := by
    unfold overloadedFindingFor
    simp only [validateOverloadedWorkers, List.mem_flatMap]
    refine ⟨w, hw, ?_⟩
    have e1 : truthyOr (getField w "AvailableSlots") (JVal.str "[]") = JVal.str "[]" := by
      unfold truthyOr
      rw [htr]
      rfl
    rw [e1]
    rw [show jsonParseVal (JVal.str "[]") = some (JVal.arr JArr.nil) from rfl]
    simp only []
    rw [hload]
    have hmne : (m != 0) = true := by simp; omega
    have e2 : truthyOr (JVal.num m) (JVal.num 0) = JVal.num m := by
      unfold truthyOr
      simp [truthy, hmne]
    rw [e2]
    have e3 : jsLt (JVal.num (JArr.nil.toList.length : Int)) (JVal.num m) = true := by
      show jsLt (JVal.num 0) (JVal.num m) = true
      simp only [jsLt, toPrimitive, toNumber]
      simp
      omega
    rw [e3]
    simp only [if_true]
    exact List.mem_singleton.mpr rfl
  have hL : overloadedFindingFor w m ∈ (collectFindings data rules).1 := by
    rw [collectFindings_eq]
    refine List.mem_append.mpr (Or.inl ?_)
    unfold perEntityChecks
    refine List.mem_append.mpr (Or.inl (List.mem_append.mpr (Or.inr ?_)))
    unfold workersBlock
    rw [hws]
    exact List.mem_append.mpr (Or.inr hmem)
  exact ⟨overloadedFindingFor w m, hL, rfl, rfl, rfl⟩

/-- C10 witness: a concrete worker with no AvailableSlots field and
MaxLoadPerPhase 3 is reported overloaded with 0 slots against 3. -/
theorem missing_slots_reported_overloaded_witness :
    ∃ f ∈ (collectFindings noSlotsData []).1, f.type = "overloaded_worker" ∧
      f.entityId = some (getField workerNoSlots "WorkerID") ∧
      f.message = "Worker has 0 available slots but max load is " ++ toString (3 : Int) :=
  missing_slots_reported_overloaded noSlotsData [] [workerNoSlots] workerNoSlots 3 rfl
    (List.mem_singleton.mpr rfl) (Or.inl rfl) rfl (by decide)

theorem slots_filter_eq (w : Entity) :
    ((collectFindings { clients := none, workers := some [w], tasks := none } []).1.filter
      (fun f => slotsFindingTypes.contains f.type)) = validateAvailableSlots [w] := by
  have hL : (collectFindings { clients := none, workers := some [w], tasks := none } []).1 =
      validateRequiredColumns [w] "workers" ++ (validateUniqueIds [w] "workers" ++
        (validateAvailableSlots [w] ++ validateOverloadedWorkers [w])) := by
    simp [collectFindings, seqChecks, perEntityChecks, clientsBlock, workersBlock, tasksBlock,
      crossEntityChecks, ruleChecks, validateCircularCoRunGroups, validateRuleConflicts,
      List.append_assoc]
  rw [hL]
  simp only [List.filter_append]
  have h1 : (validateRequiredColumns [w] "workers").filter
      (fun f => slotsFindingTypes.contains f.type) = [] :=
    List.filter_eq_nil_iff.mpr (fun f hf => by
      simp [validateRequiredColumns_types [w] "workers" f hf, slotsFindingTypes])
  have h2 : (validateUniqueIds [w] "workers").filter
      (fun f => slotsFindingTypes.contains f.type) = [] :=
    List.filter_eq_nil_iff.mpr (fun f hf => by
      simp [validateUniqueIds_types [w] "workers" f hf, slotsFindingTypes])
  have h4 : (validateOverloadedWorkers [w]).filter
      (fun f => slotsFindingTypes.contains f.type) = [] :=
    List.filter_eq_nil_iff.mpr (fun f hf => by
      simp [validateOverloadedWorkers_types [w] f hf, slotsFindingTypes])
  have h3 : (validateAvailableSlots [w]).filter
      (fun f => slotsFindingTypes.contains f.type) = validateAvailableSlots [w] :=
    List.filter_eq_self.mpr (fun f hf => by
      rcases validateAvailableSlots_types [w] f hf with h | h | h <;>
        simp [h, slotsFindingTypes])
  rw [h1, h2, h3, h4]
  simp

/-- C6: for a worker whose AvailableSlots value is truthy,
`validateData` emits exactly one of the three mutually exclusive slot
findings — unparseable_slots when the value does not parse as JSON,
invalid_slots_format when it parses to a non-array,
invalid_slot_values when it parses to an array with an element that is
not a number >= 1 — and none of the three when it parses to an array
of numbers all >= 1. -/
theorem availableSlots_classification (w : Entity)
    (h : truthy (getField w "AvailableSlots") = true) :
    (jsonParseVal (getField w "AvailableSlots") = none →
      ((collectFindings { clients := none, workers := some [w], tasks := none } []).1.filter
        (fun f => slotsFindingTypes.contains f.type)).map (fun f => f.type) =
        ["unparseable_slots"]) ∧
    (∀ v, jsonParseVal (getField w "AvailableSlots") = some v → isArrVal v = false →
      ((collectFindings { clients := none, workers := some [w], tasks := none } []).1.filter
        (fun f => slotsFindingTypes.contains f.type)).map (fun f => f.type) =
        ["invalid_slots_format"]) ∧
    (∀ xs, jsonParseVal (getField w "AvailableSlots") = some (JVal.arr xs) →
      xs.toList.any (fun slot => !isNumberType slot || jsLt slot (JVal.num 1)) = true →
      ((collectFindings { clients := none, workers := some [w], tasks := none } []).1.filter
        (fun f => slotsFindingTypes.contains f.type)).map (fun f => f.type) =
        ["invalid_slot_values"]) ∧
    (∀ xs, jsonParseVal (getField w "AvailableSlots") = some (JVal.arr xs) →
      xs.toList.any (fun slot => !isNumberType slot || jsLt slot (JVal.num 1)) = false →
      ((collectFindings { clients := none, workers := some [w], tasks := none } []).1.filter
        (fun f => slotsFindingTypes.contains f.type)).map (fun f => f.type) = []) := by
  refine ⟨?_, ?_, ?_, ?_⟩
  · intro hp
    rw [slots_filter_eq]
    simp [validateAvailableSlots, h, hp]
  · intro v hp hv
    rw [slots_filter_eq]
    cases v <;> simp_all [validateAvailableSlots, isArrVal]
  · intro xs hp ha
    rw [slots_filter_eq]
    simp at ha
    simp [validateAvailableSlots, h, hp, ha]
  · intro xs hp ha
    rw [slots_filter_eq]
    simp at ha
    simp [validateAvailableSlots, h, hp]
    exact ha

/-- C6 witness: a worker whose AvailableSlots is the unparseable
string "nope" yields exactly the unparseable_slots finding. -/
theorem availableSlots_classification_witness :
    ((collectFindings { clients := none, workers := some [workerBadSlots], tasks := none }
        []).1.filter (fun f => slotsFindingTypes.contains f.type)).map (fun f => f.type) =
      ["unparseable_slots"] :=
  (availableSlots_classification workerBadSlots rfl).1 rfl

/-- C3 counterexample: the two inlined PreferredPhases parsers are
distinct functions; they disagree on every fallback path.  On the
plain string "x" and on the bracketed parse failure "[a]" the
phase-saturation copy yields [1] while the rule-conflict copy yields
[1,2,3,4,5]; on the empty JSON array "[]" and on the empty dash range
"5-3" the saturation copy again yields [1] while the conflict copy
yields the empty list. -/
theorem preferredPhases_parsers_differ :
    (jsToString (saturationPreferredPhases "x") = "1" ∧
     jsToString (conflictPreferredPhases "x") = "1,2,3,4,5") ∧
    (jsToString (saturationPreferredPhases "[a]") = "1" ∧
     jsToString (conflictPreferredPhases "[a]") = "1,2,3,4,5") ∧
    (jsToString (saturationPreferredPhases "[]") = "1" ∧
     jsToString (conflictPreferredPhases "[]") = "") ∧
    (jsToString (saturationPreferredPhases "5-3") = "1" ∧
     jsToString (conflictPreferredPhases "5-3") = "") ∧
    saturationPreferredPhases "x" ≠ conflictPreferredPhases "x" ∧
    saturationPreferredPhases "[a]" ≠ conflictPreferredPhases "[a]" ∧
    saturationPreferredPhases "[]" ≠ conflictPreferredPhases "[]" ∧
    saturationPreferredPhases "5-3" ≠ conflictPreferredPhases "5-3" := by
  refine ⟨⟨rfl, rfl⟩, ⟨rfl, rfl⟩, ⟨rfl, rfl⟩, ⟨rfl, rfl⟩, ?_, ?_, ?_, ?_⟩
  · intro hEq
    have h2 : jsToString (saturationPreferredPhases "x") =
        jsToString (conflictPreferredPhases "x") := by rw [hEq]
    rw [show jsToString (saturationPreferredPhases "x") = "1" from rfl,
      show jsToString (conflictPreferredPhases "x") = "1,2,3,4,5" from rfl] at h2
    exact absurd h2 (by decide)
  · intro hEq
    have h2 : jsToString (saturationPreferredPhases "[a]") =
        jsToString (conflictPreferredPhases "[a]") := by rw [hEq]
    rw [show jsToString (saturationPreferredPhases "[a]") = "1" from rfl,
      show jsToString (conflictPreferredPhases "[a]") = "1,2,3,4,5" from rfl] at h2
    exact absurd h2 (by decide)
  · intro hEq
    have h2 : jsToString (saturationPreferredPhases "[]") =
        jsToString (conflictPreferredPhases "[]") := by rw [hEq]
    rw [show jsToString (saturationPreferredPhases "[]") = "1" from rfl,
      show jsToString (conflictPreferredPhases "[]") = "" from rfl] at h2
    exact absurd h2 (by decide)
  · intro hEq
    have h2 : jsToString (saturationPreferredPhases "5-3") =
        jsToString (conflictPreferredPhases "5-3") := by rw [hEq]
    rw [show jsToString (saturationPreferredPhases "5-3") = "1" from rfl,
      show jsToString (conflictPreferredPhases "5-3") = "" from rfl] at h2
    exact absurd h2 (by decide)

/-- C3 (amended): the two inlined PreferredPhases parsers agree
whenever parsing genuinely succeeds — on a bracketed string whose JSON
parse succeeds with a value of nonzero length (in particular any
nonempty JSON array), and on a bracket-free dash range whose two
endpoints both parse as integers with start <= stop — and diverge on
the fallback paths, where the saturation copy replaces every
length-zero result with [1] while the conflict copy yields
[1,2,3,4,5] on a bracketed JSON failure or a plain string and the
empty list on an empty array or an empty or invalid dash range. -/
theorem preferredPhases_parsers_agree (s : String)
    (h :
      (strContainsChar s '[' = true ∧ strContainsChar s ']' = true ∧
        ∃ v, jsonParse s = some v ∧ jsLengthIsZero v = false) ∨
      (¬(strContainsChar s '[' = true ∧ strContainsChar s ']' = true) ∧
        strContainsChar s '-' = true ∧
        ∃ start stop, dashParts s = (some start, some stop) ∧ start ≤ stop)) :
    saturationPreferredPhases s = conflictPreferredPhases s := by
  rcases h with ⟨h1, h2, v, hv, hlen⟩ | ⟨h12, hd, start, stop, hds, hle⟩
  · unfold saturationPreferredPhases conflictPreferredPhases
    rw [h1, h2]
    simp only [Bool.and_self, if_true]
    rw [hv]
    simp [hlen]
  · have hbr : (strContainsChar s '[' && strContainsChar s ']') = false := by
      cases hA : strContainsChar s '[' <;> cases hB : strContainsChar s ']' <;> simp_all
    unfold saturationPreferredPhases conflictPreferredPhases
    rw [hbr]
    simp only [Bool.false_eq_true, if_false]
    rw [hd]
    simp only [if_true]
    rw [hds]
    simp only []
    have hne : intRangeList start stop ≠ [] := by
      have hlen2 : (intRangeList start stop).length = (stop + 1 - start).toNat := by
        unfold intRangeList
        rw [List.length_map, List.length_range]
      intro hnil
      rw [hnil] at hlen2
      simp at hlen2
      omega
    obtain ⟨a, t, hat⟩ := List.exists_cons_of_ne_nil hne
    rw [hat]
    simp [JArr.ofList, jsLengthIsZero]

/-- C3 witness: on the well-formed dash range "1-3" the two parsers
agree. -/
theorem preferredPhases_parsers_agree_witness :
    saturationPreferredPhases "1-3" = conflictPreferredPhases "1-3" :=
  preferredPhases_parsers_agree "1-3"
    (Or.inr ⟨by decide, by decide, 1, 3, by decide, by decide⟩)

theorem objSet_keys (m : JMap) (k : String) (v : JVal) :
    (objSet m k v).map Prod.fst =
      if m.any (fun p => p.1 == k) then m.map Prod.fst else m.map Prod.fst ++ [k] := by
  unfold objSet
  split
  · rw [List.map_map]
    refine List.map_congr_left ?_
    intro p hp
    by_cases h : (p.1 == k) = true
    · simp only [Function.comp, h, if_true]
      exact (eq_of_beq h).symm
    · simp [Function.comp, h]
  · simp

theorem objSet_nodup (m : JMap) (k : String) (v : JVal)
    (h : (m.map Prod.fst).Nodup) : ((objSet m k v).map Prod.fst).Nodup := by
  rw [objSet_keys]
  split
  · exact h
  · rename_i hany
    have hk : k ∉ m.map Prod.fst := by
      intro hkmem
      apply hany
      simp only [List.mem_map] at hkmem
      obtain ⟨p, hp, hpk⟩ := hkmem
      exact List.any_eq_true.mpr ⟨p, hp, by simp [hpk]⟩
    simp [List.nodup_append, hk, h]

theorem demandInnerFold_nodup (duration : JVal) (xs : List JVal) :
    ∀ dem : JMap, (dem.map Prod.fst).Nodup →
      ((xs.foldl (fun dem phase =>
        objSet dem (jsToString phase)
          (jsAdd (truthyOr (objGet dem (jsToString phase)) (JVal.num 0)) duration)) dem).map
        Prod.fst).Nodup := by
  induction xs with
  | nil => intro dem h; simpa using h
  | cons p rest ih =>
    intro dem h
    simp only [List.foldl_cons]
    exact ih _ (objSet_nodup _ _ _ h)

theorem foldlM_except_nodup (step : JMap → Entity → Except String JMap)
    (hstep : ∀ m t m2, (m.map Prod.fst).Nodup → step m t = .ok m2 → (m2.map Prod.fst).Nodup) :
    ∀ (tasks : List Entity) (acc : JMap), (acc.map Prod.fst).Nodup →
      ∀ dem, List.foldlM step acc tasks = .ok dem → (dem.map Prod.fst).Nodup := by
  intro tasks
  induction tasks with
  | nil =>
    intro acc hacc dem hdem
    simp only [List.foldlM_nil] at hdem
    cases hdem
    exact hacc
  | cons t rest ih =>
    intro acc hacc dem hdem
    rw [List.foldlM_cons] at hdem
    cases hst : step acc t with
    | error e => rw [hst] at hdem; simp [Bind.bind, Except.bind] at hdem
    | ok acc2 =>
      rw [hst] at hdem
      simp only [Bind.bind, Except.bind] at hdem
      exact ih acc2 (hstep acc t acc2 hacc hst) dem hdem

theorem phaseDemandMap_nodup (tasks : List Entity) (dem : JMap)
    (h : phaseDemandMap tasks = .ok dem) : (dem.map Prod.fst).Nodup := by
  unfold phaseDemandMap at h
  refine foldlM_except_nodup _ ?_ tasks [] (by simp) dem h
  intro m t m2 hm hstep
  revert hstep
  simp only []
  cases taskPhasesValue t with
  | error e => intro h2; simp at h2
  | ok pv =>
    cases pv <;> intro h2 <;> simp only [] at h2 <;> try simp at h2
    case arr xs =>
      cases h2
      exact demandInnerFold_nodup _ xs.toList m hm

theorem lookup_of_mem_nodup (k : String) (v : JVal) :
    ∀ m : JMap, (k, v) ∈ m → (m.map Prod.fst).Nodup → m.lookup k = some v := by
  intro m
  induction m with
  | nil => intro hmem _; simp at hmem
  | cons p rest ih =>
    intro hmem hnd
    rcases List.mem_cons.mp hmem with h | h
    · subst h
      simp [List.lookup]
    · have hne : (k == p.1) = false := by
        have hk : k ∈ rest.map Prod.fst := List.mem_map.mpr ⟨(k, v), h, rfl⟩
        have hnotin : p.1 ∉ rest.map Prod.fst :=
          (List.nodup_cons.mp (by simpa using hnd)).1
        simp only [beq_eq_false_iff_ne, ne_eq]
        intro he
        exact hnotin (he ▸ hk)
      have hnd2 : (rest.map Prod.fst).Nodup := (List.nodup_cons.mp (by simpa using hnd)).2
      rcases p with ⟨pk, pv⟩
      simp only [List.lookup, hne]
      exact ih h hnd2

theorem objGet_of_mem_nodup (m : JMap) (k : String) (v : JVal) (hmem : (k, v) ∈ m)
    (hnd : (m.map Prod.fst).Nodup) : objGet m k = v := by
  unfold objGet
  rw [lookup_of_mem_nodup k v m hmem hnd]

theorem mkSat_canonical (dem cap : JMap) (k : String) (n : Int)
    (hpk : parseIntJS k = some n) (hk : toString n = k) :
    mkSaturationFinding dem cap k =
      if jsGt (objGet dem k) (truthyOr (objGet cap k) (JVal.num 0)) then
        [satFinding k (objGet dem k) (truthyOr (objGet cap k) (JVal.num 0))]
      else [] := by
  unfold mkSaturationFinding satFinding
  rw [hpk]
  simp only []
  rw [hk]

theorem satFindings_of_sub (dem cap : JMap) :
    ∀ sub : List (String × JVal),
      (∀ kv ∈ sub, objGet dem kv.1 = kv.2 ∧ canonicalKey kv.1 = true) →
      (sub.map Prod.fst).flatMap (mkSaturationFinding dem cap) =
        (sub.filter (fun kv => jsGt kv.2 (truthyOr (objGet cap kv.1) (JVal.num 0)))).map
          (fun kv => satFinding kv.1 kv.2 (truthyOr (objGet cap kv.1) (JVal.num 0))) := by
  intro sub
  induction sub with
  | nil => intro _; rfl
  | cons kv rest ih =>
    intro hprop
    obtain ⟨hget, hcan⟩ := hprop kv (List.mem_cons_self _ _)
    have hrest := ih (fun kv2 h2 => hprop kv2 (List.mem_cons_of_mem _ h2))
    simp only [List.map_cons, List.flatMap_cons, List.filter_cons]
    unfold canonicalKey at hcan
    rcases hpk : parseIntJS kv.1 with _ | n
    · rw [hpk] at hcan; simp at hcan
    · rw [hpk] at hcan
      have hk : toString n = kv.1 := by simpa using hcan
      rw [mkSat_canonical dem cap kv.1 n hpk hk, hget, hrest]
      by_cases hgt : jsGt kv.2 (truthyOr (objGet cap kv.1) (JVal.num 0)) = true
      · rw [if_pos hgt, if_pos hgt]
        simp
      · rw [if_neg hgt, if_neg hgt]
        simp

/-- C7 (amended): on the fixture input (one task: TaskID "T1",
Duration 5, PreferredPhases "1-2", empty workers array) `validateData`
emits a saturation finding for phase 1 and for phase 2, each reporting
demand 5 against capacity 0; and in general, when every key of the
demand map is canonical (the stringification of its own parseInt, as
always holds when the preferred phases are numbers), a saturation
finding is emitted for a demand key if and only if its demand exceeds
its capacity (capacity defaulting to 0).  Non-canonical keys escape
the reporting loop — see the counterexample. -/
theorem phase_slot_saturation_demand_vs_capacity (workers tasks : List Entity) (dem : JMap)
    (hdem : phaseDemandMap tasks = .ok dem)
    (hcanon : ∀ k ∈ dem.map Prod.fst, canonicalKey k = true) :
    ((collectFindings saturationData []).1.map (fun f => (f.type, f.message)) =
      [("phase_slot_saturation",
        "Phase 1 is overloaded: 5 task duration units vs 0 worker capacity"),
       ("phase_slot_saturation",
        "Phase 2 is overloaded: 5 task duration units vs 0 worker capacity")]) ∧
    (validatePhaseSlotSaturation workers tasks).1 =
      (dem.filter (fun kv =>
        jsGt kv.2 (truthyOr (objGet (phaseCapacityMap workers) kv.1) (JVal.num 0)))).map
        (fun kv => satFinding kv.1 kv.2
          (truthyOr (objGet (phaseCapacityMap workers) kv.1) (JVal.num 0))) := by
  constructor
  · rfl
  · have hnd := phaseDemandMap_nodup tasks dem hdem
    unfold validatePhaseSlotSaturation
    rw [hdem]
    simp only []
    refine satFindings_of_sub dem (phaseCapacityMap workers) dem ?_
    intro kv hkv
    exact ⟨objGet_of_mem_nodup dem kv.1 kv.2 hkv hnd,
      hcanon kv.1 (List.mem_map.mpr ⟨kv, hkv, rfl⟩)⟩

/-- C7 counterexample: for a task whose PreferredPhases is the JSON
array string containing "1a", the demand map holds the key "1a" with
demand 5 exceeding the capacity 0, yet `validateData` emits no
phase_slot_saturation finding at all: the reporting loop re-indexes
both maps at String(parseInt("1a")) = "1", which misses. -/
theorem saturation_noncanonical_key_unreported :
    phaseDemandMap [nonCanonicalTask] = .ok [("1a", JVal.num 5)] ∧
    jsGt (JVal.num 5) (truthyOr (objGet (phaseCapacityMap []) "1a") (JVal.num 0)) = true ∧
    (collectFindings
      { clients := none, workers := some [], tasks := some [nonCanonicalTask] } []).1 = [] ∧
    (collectFindings
      { clients := none, workers := some [], tasks := some [nonCanonicalTask] } []).2 = none :=
  ⟨rfl, rfl, rfl, rfl⟩

/-- C7 witness: the general demand-versus-capacity equation applied to
the concrete fixture (demand map {1: 5, 2: 5}, no capacity). -/
theorem phase_slot_saturation_demand_vs_capacity_witness :
    (validatePhaseSlotSaturation [] [saturationTask]).1 =
      (([("1", JVal.num 5), ("2", JVal.num 5)] : JMap).filter (fun kv =>
        jsGt kv.2 (truthyOr (objGet (phaseCapacityMap []) kv.1) (JVal.num 0)))).map
        (fun kv => satFinding kv.1 kv.2
          (truthyOr (objGet (phaseCapacityMap []) kv.1) (JVal.num 0))) :=
  (phase_slot_saturation_demand_vs_capacity [] [saturationTask]
    [("1", JVal.num 5), ("2", JVal.num 5)] rfl (by decide)).2

theorem buildCoRunGraph_three (r : BusinessRule) (a b c : String)
    (hids : r.parameters.taskIds = some [a, b, c])
    (hab : a ≠ b) (hac : a ≠ c) (hbc : b ≠ c) :
    buildCoRunGraph [r] = [(a, [b, c]), (b, [a, c]), (c, [a, b])] := by
  have hab1 : (a == b) = false := beq_eq_false_iff_ne.mpr hab
  have hba1 : (b == a) = false := beq_eq_false_iff_ne.mpr (Ne.symm hab)
  have hac1 : (a == c) = false := beq_eq_false_iff_ne.mpr hac
  have hca1 : (c == a) = false := beq_eq_false_iff_ne.mpr (Ne.symm hac)
  have hbc1 : (b == c) = false := beq_eq_false_iff_ne.mpr hbc
  have hcb1 : (c == b) = false := beq_eq_false_iff_ne.mpr (Ne.symm hbc)
  have hab2 : (a != b) = true := by simp [bne, hab1]
  have hba2 : (b != a) = true := by simp [bne, hba1]
  have hac2 : (a != c) = true := by simp [bne, hac1]
  have hca2 : (c != a) = true := by simp [bne, hca1]
  have hbc2 : (b != c) = true := by simp [bne, hbc1]
  have hcb2 : (c != b) = true := by simp [bne, hcb1]
  unfold buildCoRunGraph
  simp only [List.foldl_cons, List.foldl_nil]
  rw [hids]
  simp only [Option.getD_some]
  simp [graphEnsure, graphAddEdge, setAddStr, List.lookup,
    hab, hac, hbc, Ne.symm hab, Ne.symm hac, Ne.symm hbc,
    hab1, hba1, hac1, hca1, hbc1, hcb1]

theorem hasCycle_three (a b c : String) (hab : a ≠ b) (hac : a ≠ c) (hbc : b ≠ c) :
    (hasCycle [(a, [b, c]), (b, [a, c]), (c, [a, b])] 5 a []
      { visited := [], recStack := [], findings := [] }).2.findings =
      [mkCircularFinding [a, b, a]] := by
  have hab1 : (a == b) = false := beq_eq_false_iff_ne.mpr hab
  have hba1 : (b == a) = false := beq_eq_false_iff_ne.mpr (Ne.symm hab)
  have hac1 : (a == c) = false := beq_eq_false_iff_ne.mpr hac
  have hca1 : (c == a) = false := beq_eq_false_iff_ne.mpr (Ne.symm hac)
  have hbc1 : (b == c) = false := beq_eq_false_iff_ne.mpr hbc
  have hcb1 : (c == b) = false := beq_eq_false_iff_ne.mpr (Ne.symm hbc)
  simp [hasCycle, dfsNeighbors, List.lookup, jsIndexOfStr, jsIndexOfStrAux, jsSlice,
    List.contains, List.elem, hab1, hba1, hac1, hca1, hbc1, hcb1]

/-- C8: for a rule set whose active coRun rules consist of exactly one
rule over three distinct member task ids, `validateData`'s circular
co-run check emits at least one circular_corun_group finding: the
pairwise bidirectional edges among the three tasks form a cycle found
by the depth-first traversal. -/
theorem coRun_three_members_cycle_detected (rules : List BusinessRule) (r : BusinessRule)
    (a b c : String)
    (hfilter : rules.filter (fun x => x.type == "coRun" && x.isActive) = [r])
    (hids : r.parameters.taskIds = some [a, b, c])
    (hab : a ≠ b) (hac : a ≠ c) (hbc : b ≠ c) :
    ∃ f ∈ validateCircularCoRunGroups rules, f.type = "circular_corun_group" := by
  have hne : (([r] : List BusinessRule).isEmpty) = false := rfl
  simp only [validateCircularCoRunGroups, hfilter, hne, Bool.false_eq_true, if_false]
  rw [buildCoRunGraph_three r a b c hids hab hac hbc]
  simp only [List.map_cons, List.map_nil]
  rw [List.foldl_cons]
  have hstep1 : (circRootStep [(a, [b, c]), (b, [a, c]), (c, [a, b])]
      { visited := [], recStack := [], findings := [] } a).findings =
      [mkCircularFinding [a, b, a]] := by
    unfold circRootStep
    rw [if_neg (by simp)]
    have h5 : ([(a, [b, c]), (b, [a, c]), (c, [a, b])].length + 2) = 5 := by simp
    rw [h5]
    exact hasCycle_three a b c hab hac hbc
  obtain ⟨t, hT, _⟩ := circFold_findings [(a, [b, c]), (b, [a, c]), (c, [a, b])] [b, c]
    (circRootStep [(a, [b, c]), (b, [a, c]), (c, [a, b])]
      { visited := [], recStack := [], findings := [] } a)
  refine ⟨mkCircularFinding [a, b, a], ?_, rfl⟩
  rw [hT, hstep1]
  exact List.mem_append_left _ (List.mem_singleton.mpr rfl)

/-- C8 witness: one active coRun rule over T1, T2, T3 yields a
circular_corun_group finding. -/
theorem coRun_three_members_cycle_detected_witness :
    ∃ f ∈ validateCircularCoRunGroups [mkCoRunRule ["T1", "T2", "T3"]],
      f.type = "circular_corun_group" :=
  coRun_three_members_cycle_detected [mkCoRunRule ["T1", "T2", "T3"]]
    (mkCoRunRule ["T1", "T2", "T3"]) "T1" "T2" "T3" rfl rfl (by decide) (by decide)
    (by decide)
